import Mathlib

/-!
Shallow embedding of the NDEF TLV parser (`src/ndef.py`) together with
verification of its specified properties.

Positions and lengths are modelled as `Int` (Python `int`), byte values as
`Nat` (elements of a Python `bytes` object), and exception raising as an
`Except` value.  The two `while` loops of the source are modelled with an
explicit fuel parameter; fuel exhaustion is a distinguished error that is
proved unreachable for the fuel the entry point supplies.
-/

set_option linter.unusedVariables false

abbrev Byte := Nat

/-- TLV type constants from the source. -/
def NdefTlvPadding : Byte := 0x00
def NdefTlvLockControl : Byte := 0x01
def NdefTlvMemoryControl : Byte := 0x02
def NdefTlvNdefMessage : Byte := 0x03
def NdefTlvProprietary : Byte := 0xFD
def NdefTlvTerminator : Byte := 0xFE

/-- TNF constants from the source. -/
def NdefTnfEmpty : Byte := 0x00
def NdefTnfWellKnownType : Byte := 0x01
def NdefTnfMediaType : Byte := 0x02
def NdefTnfAbsoluteUri : Byte := 0x03
def NdefTnfExternalType : Byte := 0x04
def NdefTnfUnknown : Byte := 0x05
def NdefTnfUnchanged : Byte := 0x06
def NdefTnfReserved : Byte := 0x07

/-- URI prefix mapping (`ndef_uri_prepends.get(code, "")`). -/
def ndef_uri_prepends (code : Byte) : String :=
  if code = 0x00 then ""
  else if code = 0x01 then "http://www."
  else if code = 0x02 then "https://www."
  else if code = 0x03 then "http://"
  else if code = 0x04 then "https://"
  else if code = 0x05 then "tel:"
  else if code = 0x06 then "mailto:"
  else ""

/-- Clamp one slice endpoint the way Python does for `l[start:stop]`. -/
def pyBound (len : Nat) (i : Int) : Nat :=
  if i < 0 then ((len : Int) + i).toNat else min i.toNat len

/-- Python slice `l[start:stop]` (step 1). -/
def pySlice (l : List Byte) (start stop : Int) : List Byte :=
  (l.take (pyBound l.length stop)).drop (pyBound l.length start)

/-- `bytes[0]` on a list known (at its call sites) to be non-empty. -/
def byte0 (l : List Byte) : Byte := l.headD 0

/-- `int.from_bytes(l, byteorder='big')`. -/
def bytesToNatBE (l : List Byte) : Nat := l.foldl (fun acc b => acc * 256 + b) 0

/-- The printability test of `Ndef.dump`: `32 <= b < 127 or b in (9,10,13)`. -/
def isPrintableByte (b : Byte) : Bool :=
  (32 ≤ b && b < 127) || b == 9 || b == 10 || b == 13

/-- One uppercase hex digit. -/
def hexDigit (n : Nat) : Char :=
  if n < 10 then Char.ofNat (48 + n) else Char.ofNat (55 + n)

/-- `f"{b:02X}"` for a byte value. -/
def hexByte (b : Byte) : String :=
  String.mk [hexDigit (b / 16 % 16), hexDigit (b % 16)]

/-- `" ".join(f"{b:02X}" for b in l)`. -/
def hexJoin (l : List Byte) : String :=
  String.intercalate " " (l.map hexByte)

def replacementChar : Char := Char.ofNat 0xFFFD

/-- A UTF-8 continuation byte. -/
def contByte (b : Byte) : Bool := 0x80 ≤ b && b ≤ 0xBF

/-- Admissible second byte for the lead byte of a 3- or 4-byte sequence. -/
def cont2ok (b0 b1 : Byte) : Bool :=
  if b0 == 0xE0 then 0xA0 ≤ b1 && b1 ≤ 0xBF
  else if b0 == 0xED then 0x80 ≤ b1 && b1 ≤ 0x9F
  else if b0 == 0xF0 then 0x90 ≤ b1 && b1 ≤ 0xBF
  else if b0 == 0xF4 then 0x80 ≤ b1 && b1 ≤ 0x8F
  else contByte b1

/-- `bytes.decode('utf-8', errors='replace')`: standard UTF-8 decoding where a
maximal invalid subpart is replaced by one U+FFFD and decoding resumes at the
first unconsumed byte.  The fuel argument only drives the recursion; every
step consumes at least one byte, so fuel equal to the list length (as supplied
by `utf8DecodeReplace`) is never exhausted. -/
def utf8DecodeReplaceF : Nat → List Byte → List Char
  | _, [] => []
  | 0, _ :: _ => []
  | fuel + 1, b0 :: rest =>
    if b0 < 0x80 then Char.ofNat b0 :: utf8DecodeReplaceF fuel rest
    else if 0xC2 ≤ b0 && b0 ≤ 0xDF then
      match rest with
      | b1 :: rest1 =>
        if contByte b1 then
          Char.ofNat ((b0 - 0xC0) * 0x40 + (b1 - 0x80)) :: utf8DecodeReplaceF fuel rest1
        else replacementChar :: utf8DecodeReplaceF fuel rest
      | [] => [replacementChar]
    else if 0xE0 ≤ b0 && b0 ≤ 0xEF then
      match rest with
      | b1 :: rest1 =>
        if cont2ok b0 b1 then
          match rest1 with
          | b2 :: rest2 =>
            if contByte b2 then
              Char.ofNat ((b0 - 0xE0) * 0x1000 + (b1 - 0x80) * 0x40 + (b2 - 0x80)) ::
                utf8DecodeReplaceF fuel rest2
            else replacementChar :: utf8DecodeReplaceF fuel rest1
          | [] => [replacementChar]
        else replacementChar :: utf8DecodeReplaceF fuel rest
      | [] => [replacementChar]
    else if 0xF0 ≤ b0 && b0 ≤ 0xF4 then
      match rest with
      | b1 :: rest1 =>
        if cont2ok b0 b1 then
          match rest1 with
          | b2 :: rest2 =>
            if contByte b2 then
              match rest2 with
              | b3 :: rest3 =>
                if contByte b3 then
                  Char.ofNat ((b0 - 0xF0) * 0x40000 + (b1 - 0x80) * 0x1000 +
                      (b2 - 0x80) * 0x40 + (b3 - 0x80)) :: utf8DecodeReplaceF fuel rest3
                else replacementChar :: utf8DecodeReplaceF fuel rest2
              | [] => [replacementChar]
            else replacementChar :: utf8DecodeReplaceF fuel rest1
          | [] => [replacementChar]
        else replacementChar :: utf8DecodeReplaceF fuel rest
      | [] => [replacementChar]
    else replacementChar :: utf8DecodeReplaceF fuel rest

/-- `bytes.decode('utf-8', errors='replace')` as a `String`. -/
def pyDecode (l : List Byte) : String := String.mk (utf8DecodeReplaceF l.length l)

/-- Characters removed by Python `str.strip()` (the `str.isspace` set). -/
def pyIsSpace (c : Char) : Bool :=
  c.toNat ∈ [0x09, 0x0A, 0x0B, 0x0C, 0x0D, 0x1C, 0x1D, 0x1E, 0x1F, 0x20,
    0x85, 0xA0, 0x1680, 0x2000, 0x2001, 0x2002, 0x2003, 0x2004, 0x2005,
    0x2006, 0x2007, 0x2008, 0x2009, 0x200A, 0x2028, 0x2029, 0x202F, 0x205F, 0x3000]

/-- Python `str.strip()`. -/
def pyStrip (s : String) : String :=
  String.mk (((s.toList.dropWhile pyIsSpace).reverse.dropWhile pyIsSpace).reverse)

/-- The error conditions of one parse call.  `fuelExhausted` is an artifact of
the fuel encoding of the source's while loops; it is proved unreachable for
the fuel the entry point supplies. -/
inductive NdefError where
  | outOfBounds
  | chunkedRecord
  | fuelExhausted
deriving DecidableEq

/-- `str(e)` for the `ValueError`s the source raises. -/
def NdefError.message : NdefError → String
  | .outOfBounds => "Out-of-bounds access in NDEF data"
  | .chunkedRecord => "Chunked records not supported"
  | .fuelExhausted => "fuel exhausted"

/-- The `Ndef` object: the borrowed byte buffer plus the output accumulator. -/
structure Ndef where
  data : List Byte
  output : String
deriving DecidableEq

/-- `Ndef.get`: bounds-checked read of `length` bytes at `pos`. -/
def Ndef.get (n : Ndef) (pos length : Int) : Except NdefError (List Byte) :=
  if pos + length > (n.data.length : Int) then .error .outOfBounds
  else .ok (pySlice n.data pos (pos + length))

/-- `Ndef.dump`: hex/text fallback rendering of a byte range. -/
def Ndef.dump (n : Ndef) (label : String) (pos length : Int) (force_hex : Bool) :
    Except NdefError Ndef :=
  match n.get pos length with
  | .error e => .error e
  | .ok chunk =>
    let head := if label ≠ "" then label ++ ": " else ""
    if !force_hex && chunk.all isPrintableByte then
      .ok ⟨n.data, n.output ++ head ++ pyDecode chunk ++ "\n"⟩
    else
      .ok ⟨n.data, n.output ++ head ++ hexJoin chunk ++ "\n"⟩

/-- ASCII byte values of a string literal (for the `b"..."` literals). -/
def asciiBytes (s : String) : List Byte := s.toList.map Char.toNat

/-- `parse_ndef_uri`. -/
def parse_ndef_uri (ndef : Ndef) (pos length : Int) : Except NdefError Ndef :=
  match ndef.get pos 1 with
  | .error e => .error e
  | .ok pb =>
    let prepend_type := byte0 pb
    let pos := pos + 1
    let length := length - 1
    let prepend := ndef_uri_prepends prepend_type
    match ndef.get pos length with
    | .error e => .error e
    | .ok payload =>
      .ok ⟨ndef.data, ndef.output ++ "URI\n" ++ prepend ++ pyDecode payload ++ "\n"⟩

/-- `parse_ndef_text`. -/
def parse_ndef_text (ndef : Ndef) (pos length : Int) : Except NdefError Ndef :=
  match ndef.get pos 1 with
  | .error e => .error e
  | .ok lb =>
    let lang_len : Int := byte0 lb
    let pos := pos + 1
    let length := length - 1
    match ndef.get pos lang_len with
    | .error e => .error e
    | .ok _language =>
      let pos := pos + lang_len
      let length := length - lang_len
      match ndef.get pos length with
      | .error e => .error e
      | .ok payload =>
        .ok ⟨ndef.data, ndef.output ++ "Text\n" ++ pyDecode payload ++ "\n"⟩

/-- `parse_ndef_bt`. -/
def parse_ndef_bt (ndef : Ndef) (pos length : Int) : Except NdefError Ndef :=
  match ndef.get (pos + 2) (length - 2) with
  | .error e => .error e
  | .ok bt_mac =>
    .ok ⟨ndef.data, ndef.output ++ "BT MAC\n" ++ hexJoin bt_mac ++ "\n"⟩

/-- `parse_ndef_vcard`. -/
def parse_ndef_vcard (ndef : Ndef) (pos length : Int) : Except NdefError Ndef :=
  match ndef.get pos length with
  | .error e => .error e
  | .ok payload =>
    .ok ⟨ndef.data, ndef.output ++ "Contact\n" ++ pyDecode payload ++ "\n"⟩

/-- `parse_ndef_wifi`. -/
def parse_ndef_wifi (ndef : Ndef) (pos length : Int) : Except NdefError Ndef :=
  match ndef.get pos length with
  | .error e => .error e
  | .ok payload =>
    .ok ⟨ndef.data, ndef.output ++ "WiFi\n" ++ hexJoin payload ++ "\n"⟩

/-- Payload length field of a record: 1 byte when SR is set, else 4 bytes
big-endian (steps of `parse_ndef_record`). -/
def ndef_read_payload_len (ndef : Ndef) (sr : Nat) (pos : Int) :
    Except NdefError (Int × Int) :=
  if sr ≠ 0 then
    match ndef.get pos 1 with
    | .error e => .error e
    | .ok pb => .ok ((byte0 pb : Nat), pos + 1)
  else
    match ndef.get pos 4 with
    | .error e => .error e
    | .ok pb => .ok ((bytesToNatBE pb : Nat), pos + 4)

/-- ID length field of a record: 1 byte when IL is set, else zero. -/
def ndef_read_id_len (ndef : Ndef) (il : Nat) (pos : Int) :
    Except NdefError (Int × Int) :=
  if il ≠ 0 then
    match ndef.get pos 1 with
    | .error e => .error e
    | .ok ib => .ok ((byte0 ib : Nat), pos + 1)
  else .ok (0, pos)

/-- The `(tnf, type_field)` dispatch chain of `parse_ndef_record`. -/
def ndef_record_dispatch (ndef : Ndef) (tnf : Nat) (type_field : List Byte)
    (pos payload_len : Int) : Except NdefError Ndef :=
  if tnf = NdefTnfWellKnownType then
    if type_field = asciiBytes "U" then parse_ndef_uri ndef pos payload_len
    else if type_field = asciiBytes "T" then parse_ndef_text ndef pos payload_len
    else ndef.dump "Unknown Well-known" pos payload_len false
  else if tnf = NdefTnfMediaType then
    if type_field = asciiBytes "application/vnd.bluetooth.ep.oob" then
      parse_ndef_bt ndef pos payload_len
    else if type_field = asciiBytes "text/vcard" then
      parse_ndef_vcard ndef pos payload_len
    else if type_field = asciiBytes "application/vnd.wfa.wsc" then
      parse_ndef_wifi ndef pos payload_len
    else ndef.dump "Unknown Media" pos payload_len false
  else ndef.dump "Unsupported TNF" pos payload_len false

/-- `parse_ndef_record`: decode one record header at `pos`, dispatch on
`(tnf, type_field)`, and return the updated state with the position just past
the declared payload. -/
def parse_ndef_record (ndef : Ndef) (pos : Int) (message_num : Nat) :
    Except NdefError (Ndef × Int) :=
  match ndef.get pos 1 with
  | .error e => .error e
  | .ok fb =>
    let flags := byte0 fb
    let pos := pos + 1
    let mb := (flags >>> 7) &&& 0x1
    let me := (flags >>> 6) &&& 0x1
    let cf := (flags >>> 5) &&& 0x1
    let sr := (flags >>> 4) &&& 0x1
    let il := (flags >>> 3) &&& 0x1
    let tnf := flags &&& 0x07
    if cf ≠ 0 then .error .chunkedRecord
    else
      match ndef.get pos 1 with
      | .error e => .error e
      | .ok tb =>
        let type_len : Int := byte0 tb
        let pos := pos + 1
        match ndef_read_payload_len ndef sr pos with
        | .error e => .error e
        | .ok (payload_len, pos) =>
          match ndef_read_id_len ndef il pos with
          | .error e => .error e
          | .ok (id_len, pos) =>
            match ndef.get pos type_len with
            | .error e => .error e
            | .ok type_field =>
              let pos := pos + type_len
              let pos := pos + id_len
              match ndef_record_dispatch ndef tnf type_field pos payload_len with
              | .error e => .error e
              | .ok ndef => .ok (ndef, pos + payload_len)

/-- The `while pos < end` loop of `parse_ndef_message`, with fuel. -/
def parse_ndef_message_loop :
    Nat → Ndef → Int → Int → Nat → Except NdefError (Ndef × Int)
  | 0, _, _, _, _ => .error .fuelExhausted
  | fuel + 1, ndef, pos, end_, message_num =>
    if pos < end_ then
      match parse_ndef_record ndef pos message_num with
      | .error e => .error e
      | .ok (ndef, pos) => parse_ndef_message_loop fuel ndef pos end_ message_num
    else .ok (ndef, pos)

/-- `parse_ndef_message`: decode records over `[pos, pos+length)`. -/
def parse_ndef_message (fuel : Nat) (ndef : Ndef) (pos length : Int)
    (message_num : Nat) : Except NdefError (Ndef × Int) :=
  parse_ndef_message_loop fuel ndef pos (pos + length) message_num

/-- TLV length field: the length byte directly when `< 0xFF`, else the next
2 bytes big-endian (the length decoding step of `parse_ndef_tlv`). -/
def ndef_read_tlv_len (ndef : Ndef) (len_type : Nat) (pos : Int) :
    Except NdefError (Int × Int) :=
  if len_type < 0xFF then .ok ((len_type : Nat), pos)
  else
    match ndef.get pos 2 with
    | .error e => .error e
    | .ok lw => .ok ((bytesToNatBE lw : Nat), pos + 2)

/-- The `while pos < end` loop of `parse_ndef_tlv`, with fuel. -/
def parse_ndef_tlv_loop :
    Nat → Ndef → Int → Int → Nat → Except NdefError (Ndef × Nat)
  | 0, _, _, _, _ => .error .fuelExhausted
  | fuel + 1, ndef, pos, end_, message_count =>
    if pos < end_ then
      match ndef.get pos 1 with
      | .error e => .error e
      | .ok tb =>
        let tlv_type := byte0 tb
        let pos := pos + 1
        if tlv_type = NdefTlvPadding then
          parse_ndef_tlv_loop fuel ndef pos end_ message_count
        else if tlv_type = NdefTlvTerminator then
          .ok (ndef, message_count)
        else if tlv_type = NdefTlvLockControl ∨ tlv_type = NdefTlvMemoryControl ∨
            tlv_type = NdefTlvProprietary ∨ tlv_type = NdefTlvNdefMessage then
          match ndef.get pos 1 with
          | .error e => .error e
          | .ok lb =>
            let len_type := byte0 lb
            let pos := pos + 1
            match ndef_read_tlv_len ndef len_type pos with
            | .error e => .error e
            | .ok (tlv_len, pos) =>
              if tlv_type ≠ NdefTlvNdefMessage then
                parse_ndef_tlv_loop fuel ndef (pos + tlv_len) end_ message_count
              else
                match parse_ndef_message fuel ndef pos tlv_len (message_count + 1) with
                | .error e => .error e
                | .ok (ndef, pos) =>
                  parse_ndef_tlv_loop fuel ndef pos end_ (message_count + 1)
        else .ok (ndef, 0)
    else .ok (ndef, message_count)

/-- `parse_ndef_tlv`: scan TLVs over `[pos, pos+length)`, returning the final
state and the number of NDEF-message TLVs decoded. -/
def parse_ndef_tlv (fuel : Nat) (ndef : Ndef) (pos length : Int)
    (already_parsed : Nat) : Except NdefError (Ndef × Nat) :=
  parse_ndef_tlv_loop fuel ndef pos (pos + length) already_parsed

/-- `parse_ndef`: the public entry point.  Fuel `data.length + 1` is proved
sufficient below (`parse_ndef_tlv_fuel_sufficient`). -/
def parse_ndef (data : List Byte) : String :=
  match parse_ndef_tlv (data.length + 1) ⟨data, ""⟩ 0 (data.length : Int) 0 with
  | .ok (ndef, message_count) =>
    if message_count = 0 then "No NDEF messages found."
    else pyStrip ndef.output
  | .error e => "Error during parsing: " ++ e.message

/-! ### Basic facts about the bounds-checked accessor -/

theorem Ndef.get_error_iff (n : Ndef) (pos length : Int) :
    n.get pos length = .error .outOfBounds ↔ (n.data.length : Int) < pos + length := by
  unfold Ndef.get
  split <;> simp_all

theorem Ndef.get_error_elim (n : Ndef) (pos length : Int) (e : NdefError)
    (h : n.get pos length = .error e) : e = .outOfBounds := by
  unfold Ndef.get at h
  split at h <;> simp_all

theorem Ndef.get_ok_bounds (n : Ndef) (pos length : Int) (l : List Byte)
    (h : n.get pos length = .ok l) : pos + length ≤ (n.data.length : Int) := by
  unfold Ndef.get at h
  split at h <;> simp_all

theorem Ndef.get_ok_val (n : Ndef) (pos length : Int)
    (h : pos + length ≤ (n.data.length : Int)) :
    n.get pos length = .ok (pySlice n.data pos (pos + length)) := by
  unfold Ndef.get
  split
  · exfalso; omega
  · rfl

theorem pySlice_of_nonneg (l : List Byte) (pos length : Int) (hp : 0 ≤ pos)
    (hl : 0 ≤ length) (hb : pos + length ≤ (l.length : Int)) :
    pySlice l pos (pos + length) = (l.drop pos.toNat).take length.toNat := by
  unfold pySlice pyBound
  have h1 : ¬ (pos + length < 0) := by omega
  have h2 : ¬ (pos < 0) := by omega
  rw [if_neg h1, if_neg h2]
  have h3 : min (pos + length).toNat l.length = (pos + length).toNat := by omega
  have h4 : min pos.toNat l.length = pos.toNat := by omega
  rw [h3, h4, List.drop_take]
  congr 1
  omega

/-- C1: for every buffer and all non-negative `pos` and `length`, `Ndef.get`
fails with the out-of-bounds error exactly when `pos + length` exceeds the
buffer size, and otherwise returns exactly the `length` bytes of the buffer
starting at index `pos`. -/
theorem claim_C1 (data : List Byte) (out : String) (pos length : Int)
    (hpos : 0 ≤ pos) (hlen : 0 ≤ length) :
    ((Ndef.mk data out).get pos length = .error .outOfBounds ↔
        (data.length : Int) < pos + length) ∧
    (pos + length ≤ (data.length : Int) →
      ∃ l, (Ndef.mk data out).get pos length = .ok l ∧
        (l.length : Int) = length ∧
        ∀ i : Nat, (i : Int) < length → l.getD i 0 = data.getD (pos.toNat + i) 0) := by
  constructor
  · exact Ndef.get_error_iff ⟨data, out⟩ pos length
  · intro hb
    refine ⟨pySlice data pos (pos + length), Ndef.get_ok_val ⟨data, out⟩ pos length hb, ?_, ?_⟩
    · rw [pySlice_of_nonneg data pos length hpos hlen hb]
      simp [List.length_take, List.length_drop]
      omega
    · intro i hi
      rw [pySlice_of_nonneg data pos length hpos hlen hb]
      have hi1 : i < ((data.drop pos.toNat).take length.toNat).length := by
        simp [List.length_take, List.length_drop]
        omega
      have hi2 : pos.toNat + i < data.length := by omega
      rw [List.getD_eq_getElem _ _ hi1, List.getD_eq_getElem _ _ hi2]
      rw [List.getElem_take _, List.getElem_drop _]

/-- Witness for C1 at a concrete buffer, position and length. -/
theorem claim_C1_witness :
    ((Ndef.mk [7, 8, 9] "").get 1 2 = .error .outOfBounds ↔ (3 : Int) < 1 + 2) ∧
    ((1 : Int) + 2 ≤ 3 →
      ∃ l, (Ndef.mk [7, 8, 9] "").get 1 2 = .ok l ∧
        (l.length : Int) = 2 ∧
        ∀ i : Nat, (i : Int) < 2 → l.getD i 0 = [7, 8, 9].getD ((1 : Int).toNat + i) 0) :=
  claim_C1 [7, 8, 9] "" 1 2 (by decide) (by decide)

/-! ### Success bounds of the sub-decoders -/

theorem parse_ndef_uri_ok (ndef n' : Ndef) (pos length : Int)
    (h : parse_ndef_uri ndef pos length = .ok n') :
    pos + length ≤ (ndef.data.length : Int) ∧ n'.data = ndef.data := by
  unfold parse_ndef_uri at h
  cases h1 : ndef.get pos 1 with
  | error e => rw [h1] at h; exact Except.noConfusion h
  | ok pb =>
    rw [h1] at h
    dsimp only at h
    have hb1 := Ndef.get_ok_bounds _ _ _ _ h1
    cases h2 : ndef.get (pos + 1) (length - 1) with
    | error e => rw [h2] at h; exact Except.noConfusion h
    | ok payload =>
      rw [h2] at h
      have hb2 := Ndef.get_ok_bounds _ _ _ _ h2
      cases h
      exact ⟨by omega, rfl⟩

theorem parse_ndef_text_ok (ndef n' : Ndef) (pos length : Int)
    (h : parse_ndef_text ndef pos length = .ok n') :
    pos + length ≤ (ndef.data.length : Int) ∧ n'.data = ndef.data := by
  unfold parse_ndef_text at h
  cases h1 : ndef.get pos 1 with
  | error e => rw [h1] at h; exact Except.noConfusion h
  | ok lb =>
    rw [h1] at h
    dsimp only at h
    cases h2 : ndef.get (pos + 1) (byte0 lb : Nat) with
    | error e => rw [h2] at h; exact Except.noConfusion h
    | ok lang =>
      rw [h2] at h
      dsimp only at h
      cases h3 : ndef.get (pos + 1 + (byte0 lb : Nat)) (length - 1 - (byte0 lb : Nat)) with
      | error e => rw [h3] at h; exact Except.noConfusion h
      | ok payload =>
        rw [h3] at h
        have hb3 := Ndef.get_ok_bounds _ _ _ _ h3
        cases h
        exact ⟨by omega, rfl⟩

theorem parse_ndef_bt_ok (ndef n' : Ndef) (pos length : Int)
    (h : parse_ndef_bt ndef pos length = .ok n') :
    pos + length ≤ (ndef.data.length : Int) ∧ n'.data = ndef.data := by
  unfold parse_ndef_bt at h
  cases h1 : ndef.get (pos + 2) (length - 2) with
  | error e => rw [h1] at h; exact Except.noConfusion h
  | ok mac =>
    rw [h1] at h
    have hb1 := Ndef.get_ok_bounds _ _ _ _ h1
    cases h
    exact ⟨by omega, rfl⟩

theorem parse_ndef_vcard_ok (ndef n' : Ndef) (pos length : Int)
    (h : parse_ndef_vcard ndef pos length = .ok n') :
    pos + length ≤ (ndef.data.length : Int) ∧ n'.data = ndef.data := by
  unfold parse_ndef_vcard at h
  cases h1 : ndef.get pos length with
  | error e => rw [h1] at h; exact Except.noConfusion h
  | ok payload =>
    rw [h1] at h
    have hb1 := Ndef.get_ok_bounds _ _ _ _ h1
    cases h
    exact ⟨hb1, rfl⟩

theorem parse_ndef_wifi_ok (ndef n' : Ndef) (pos length : Int)
    (h : parse_ndef_wifi ndef pos length = .ok n') :
    pos + length ≤ (ndef.data.length : Int) ∧ n'.data = ndef.data := by
  unfold parse_ndef_wifi at h
  cases h1 : ndef.get pos length with
  | error e => rw [h1] at h; exact Except.noConfusion h
  | ok payload =>
    rw [h1] at h
    have hb1 := Ndef.get_ok_bounds _ _ _ _ h1
    cases h
    exact ⟨hb1, rfl⟩

theorem Ndef.dump_ok (ndef n' : Ndef) (label : String) (pos length : Int) (fh : Bool)
    (h : ndef.dump label pos length fh = .ok n') :
    pos + length ≤ (ndef.data.length : Int) ∧ n'.data = ndef.data := by
  unfold Ndef.dump at h
  cases h1 : ndef.get pos length with
  | error e => rw [h1] at h; exact Except.noConfusion h
  | ok chunk =>
    rw [h1] at h
    have hb1 := Ndef.get_ok_bounds _ _ _ _ h1
    dsimp only at h
    split at h <;> (cases h; exact ⟨hb1, rfl⟩)

theorem ndef_record_dispatch_ok (ndef n' : Ndef) (tnf : Nat) (tf : List Byte)
    (pos payload_len : Int)
    (h : ndef_record_dispatch ndef tnf tf pos payload_len = .ok n') :
    pos + payload_len ≤ (ndef.data.length : Int) ∧ n'.data = ndef.data := by
  unfold ndef_record_dispatch at h
  split_ifs at h with h1 h2 h3 h4 h5 h6 h7
  · exact parse_ndef_uri_ok _ _ _ _ h
  · exact parse_ndef_text_ok _ _ _ _ h
  · exact Ndef.dump_ok _ _ _ _ _ _ h
  · exact parse_ndef_bt_ok _ _ _ _ h
  · exact parse_ndef_vcard_ok _ _ _ _ h
  · exact parse_ndef_wifi_ok _ _ _ _ h
  · exact Ndef.dump_ok _ _ _ _ _ _ h
  · exact Ndef.dump_ok _ _ _ _ _ _ h

/-- Bounds for the tail of `parse_ndef_record` (type field read, dispatch,
final position), abstracted over the header-dependent position `p2`. -/
theorem ndef_record_tail_ok (ndef : Ndef) (p2 tl idl pl : Int) (tnf : Nat)
    (n' : Ndef) (pos' : Int) (htl : 0 ≤ tl) (hidl : 0 ≤ idl) (hpl : 0 ≤ pl)
    (h : (match ndef.get p2 tl with
          | .error e => (.error e : Except NdefError (Ndef × Int))
          | .ok type_field =>
            match ndef_record_dispatch ndef tnf type_field (p2 + tl + idl) pl with
            | .error e => .error e
            | .ok m => .ok (m, p2 + tl + idl + pl)) = .ok (n', pos')) :
    p2 ≤ pos' ∧ pos' ≤ (ndef.data.length : Int) ∧ n'.data = ndef.data := by
  cases h1 : ndef.get p2 tl with
  | error e => rw [h1] at h; exact Except.noConfusion h
  | ok type_field =>
    rw [h1] at h
    dsimp only at h
    cases h2 : ndef_record_dispatch ndef tnf type_field (p2 + tl + idl) pl with
    | error e => rw [h2] at h; exact Except.noConfusion h
    | ok m =>
      rw [h2] at h
      have hd := ndef_record_dispatch_ok _ _ _ _ _ _ h2
      cases h
      exact ⟨by omega, by omega, hd.2⟩

theorem ndef_read_payload_len_ok (ndef : Ndef) (sr : Nat) (pos plen p2 : Int)
    (h : ndef_read_payload_len ndef sr pos = .ok (plen, p2)) :
    0 ≤ plen ∧ pos + 1 ≤ p2 ∧ p2 ≤ pos + 4 ∧ p2 ≤ (ndef.data.length : Int) := by
  unfold ndef_read_payload_len at h
  split_ifs at h
  · cases h1 : ndef.get pos 1 with
    | error e => rw [h1] at h; exact Except.noConfusion h
    | ok pb =>
      rw [h1] at h
      have hb := Ndef.get_ok_bounds _ _ _ _ h1
      cases h
      refine ⟨Int.natCast_nonneg _, by omega, by omega, by omega⟩
  · cases h1 : ndef.get pos 4 with
    | error e => rw [h1] at h; exact Except.noConfusion h
    | ok pb =>
      rw [h1] at h
      have hb := Ndef.get_ok_bounds _ _ _ _ h1
      cases h
      refine ⟨Int.natCast_nonneg _, by omega, by omega, by omega⟩

theorem ndef_read_id_len_ok (ndef : Ndef) (il : Nat) (pos idl p2 : Int)
    (h : ndef_read_id_len ndef il pos = .ok (idl, p2)) :
    0 ≤ idl ∧ pos ≤ p2 ∧ p2 ≤ pos + 1 := by
  unfold ndef_read_id_len at h
  split_ifs at h
  · cases h1 : ndef.get pos 1 with
    | error e => rw [h1] at h; exact Except.noConfusion h
    | ok ib =>
      rw [h1] at h
      cases h
      refine ⟨Int.natCast_nonneg _, by omega, by omega⟩
  · cases h
    refine ⟨le_refl 0, by omega, by omega⟩

/-- A successful record decode starts strictly before its returned position,
stays within the input buffer, and leaves the buffer unchanged. -/
theorem parse_ndef_record_ok_bounds (ndef : Ndef) (pos : Int) (mn : Nat)
    (n' : Ndef) (pos' : Int)
    (h : parse_ndef_record ndef pos mn = .ok (n', pos')) :
    pos + 3 ≤ pos' ∧ pos' ≤ (ndef.data.length : Int) ∧ n'.data = ndef.data := by
  unfold parse_ndef_record at h
  cases h1 : ndef.get pos 1 with
  | error e => rw [h1] at h; exact Except.noConfusion h
  | ok fb =>
    rw [h1] at h
    dsimp only at h
    by_cases hcf : (byte0 fb >>> 5) &&& 0x1 ≠ 0
    · rw [if_pos hcf] at h; exact Except.noConfusion h
    · rw [if_neg hcf] at h
      cases h2 : ndef.get (pos + 1) 1 with
      | error e => rw [h2] at h; exact Except.noConfusion h
      | ok tb =>
        rw [h2] at h
        dsimp only at h
        cases h3 : ndef_read_payload_len ndef ((byte0 fb >>> 4) &&& 0x1) (pos + 1 + 1) with
        | error e => rw [h3] at h; exact Except.noConfusion h
        | ok pp =>
          obtain ⟨plen, p2⟩ := pp
          rw [h3] at h
          dsimp only at h
          have hp := ndef_read_payload_len_ok _ _ _ _ _ h3
          cases h4 : ndef_read_id_len ndef ((byte0 fb >>> 3) &&& 0x1) p2 with
          | error e => rw [h4] at h; exact Except.noConfusion h
          | ok ii =>
            obtain ⟨idl, p3⟩ := ii
            rw [h4] at h
            dsimp only at h
            have hi := ndef_read_id_len_ok _ _ _ _ _ h4
            have ht := ndef_record_tail_ok ndef p3 (byte0 tb : Nat) idl plen
              (byte0 fb &&& 0x07) n' pos'
              (Int.natCast_nonneg _) hi.1 hp.1 h
            exact ⟨by omega, ht.2.1, ht.2.2⟩

/-! ### The fuel-exhaustion error is never produced by the record layer -/

@[simp] theorem Ndef.get_ne_fuel (n : Ndef) (p l : Int) :
    ¬ n.get p l = .error .fuelExhausted := by
  unfold Ndef.get
  split <;> simp

@[simp] theorem parse_ndef_uri_ne_fuel (ndef : Ndef) (pos length : Int) :
    ¬ parse_ndef_uri ndef pos length = .error .fuelExhausted := by
  unfold parse_ndef_uri
  intro h
  repeat' first
    | split at h
    | dsimp only at h
  all_goals simp_all

@[simp] theorem parse_ndef_text_ne_fuel (ndef : Ndef) (pos length : Int) :
    ¬ parse_ndef_text ndef pos length = .error .fuelExhausted := by
  unfold parse_ndef_text
  intro h
  repeat' first
    | split at h
    | dsimp only at h
  all_goals simp_all

@[simp] theorem parse_ndef_bt_ne_fuel (ndef : Ndef) (pos length : Int) :
    ¬ parse_ndef_bt ndef pos length = .error .fuelExhausted := by
  unfold parse_ndef_bt
  intro h
  repeat' first
    | split at h
    | dsimp only at h
  all_goals simp_all

@[simp] theorem parse_ndef_vcard_ne_fuel (ndef : Ndef) (pos length : Int) :
    ¬ parse_ndef_vcard ndef pos length = .error .fuelExhausted := by
  unfold parse_ndef_vcard
  intro h
  repeat' first
    | split at h
    | dsimp only at h
  all_goals simp_all

@[simp] theorem parse_ndef_wifi_ne_fuel (ndef : Ndef) (pos length : Int) :
    ¬ parse_ndef_wifi ndef pos length = .error .fuelExhausted := by
  unfold parse_ndef_wifi
  intro h
  repeat' first
    | split at h
    | dsimp only at h
  all_goals simp_all

@[simp] theorem Ndef.dump_ne_fuel (n : Ndef) (label : String) (pos length : Int)
    (fh : Bool) : ¬ n.dump label pos length fh = .error .fuelExhausted := by
  unfold Ndef.dump
  intro h
  repeat' first
    | split at h
    | dsimp only at h
  all_goals simp_all

@[simp] theorem ndef_record_dispatch_ne_fuel (ndef : Ndef) (tnf : Nat)
    (tf : List Byte) (pos payload_len : Int) :
    ¬ ndef_record_dispatch ndef tnf tf pos payload_len = .error .fuelExhausted := by
  unfold ndef_record_dispatch
  intro h
  split_ifs at h <;> simp_all

@[simp] theorem ndef_read_payload_len_ne_fuel (ndef : Ndef) (sr : Nat) (pos : Int) :
    ¬ ndef_read_payload_len ndef sr pos = .error .fuelExhausted := by
  unfold ndef_read_payload_len
  intro h
  split_ifs at h <;> (repeat' split at h) <;> simp_all

@[simp] theorem ndef_read_id_len_ne_fuel (ndef : Ndef) (il : Nat) (pos : Int) :
    ¬ ndef_read_id_len ndef il pos = .error .fuelExhausted := by
  unfold ndef_read_id_len
  intro h
  split_ifs at h <;> (repeat' split at h) <;> simp_all

@[simp] theorem parse_ndef_record_ne_fuel (ndef : Ndef) (pos : Int) (mn : Nat) :
    ¬ parse_ndef_record ndef pos mn = .error .fuelExhausted := by
  unfold parse_ndef_record
  intro h
  cases h1 : ndef.get pos 1 with
  | error e => rw [h1] at h; simp_all
  | ok fb =>
    rw [h1] at h
    dsimp only at h
    by_cases hcf : (byte0 fb >>> 5) &&& 0x1 ≠ 0
    · rw [if_pos hcf] at h; exact absurd h (by simp)
    · rw [if_neg hcf] at h
      cases h2 : ndef.get (pos + 1) 1 with
      | error e => rw [h2] at h; simp_all
      | ok tb =>
        rw [h2] at h
        dsimp only at h
        cases h3 : ndef_read_payload_len ndef ((byte0 fb >>> 4) &&& 0x1) (pos + 1 + 1) with
        | error e => rw [h3] at h; simp_all
        | ok pp =>
          obtain ⟨plen, p2⟩ := pp
          rw [h3] at h
          dsimp only at h
          cases h4 : ndef_read_id_len ndef ((byte0 fb >>> 3) &&& 0x1) p2 with
          | error e => rw [h4] at h; simp_all
          | ok ii =>
            obtain ⟨idl, p3⟩ := ii
            rw [h4] at h
            dsimp only at h
            cases h5 : ndef.get p3 (byte0 tb : Nat) with
            | error e => rw [h5] at h; simp_all
            | ok tf =>
              rw [h5] at h
              dsimp only at h
              cases h6 : ndef_record_dispatch ndef (byte0 fb &&& 0x07) tf
                  (p3 + (byte0 tb : Nat) + idl) plen with
              | error e => rw [h6] at h; simp_all
              | ok m => rw [h6] at h; exact Except.noConfusion h

/-! ### Loop lemmas: progress, fuel sufficiency and fuel irrelevance -/

theorem parse_ndef_message_loop_ok (fuel : Nat) :
    ∀ (ndef : Ndef) (pos end_ : Int) (mn : Nat) (n' : Ndef) (pos' : Int),
      parse_ndef_message_loop fuel ndef pos end_ mn = .ok (n', pos') →
      pos ≤ pos' ∧ n'.data = ndef.data := by
  induction fuel with
  | zero => intro ndef pos end_ mn n' pos' h; exact Except.noConfusion h
  | succ f ih =>
    intro ndef pos end_ mn n' pos' h
    unfold parse_ndef_message_loop at h
    split at h
    · cases hr : parse_ndef_record ndef pos mn with
      | error e => rw [hr] at h; exact Except.noConfusion h
      | ok np =>
        obtain ⟨n2, p2⟩ := np
        rw [hr] at h
        dsimp only at h
        have hb := parse_ndef_record_ok_bounds _ _ _ _ _ hr
        have hi := ih n2 p2 end_ mn n' pos' h
        exact ⟨by omega, by rw [hi.2, hb.2.2]⟩
    · cases h
      exact ⟨le_refl _, rfl⟩

theorem parse_ndef_message_loop_no_fuel (fuel : Nat) :
    ∀ (ndef : Ndef) (pos end_ : Int) (mn : Nat),
      ((ndef.data.length : Int) - pos).toNat + 1 ≤ fuel →
      parse_ndef_message_loop fuel ndef pos end_ mn ≠ .error .fuelExhausted := by
  induction fuel with
  | zero => intro ndef pos end_ mn hf; omega
  | succ f ih =>
    intro ndef pos end_ mn hf
    unfold parse_ndef_message_loop
    split
    · cases hr : parse_ndef_record ndef pos mn with
      | error e =>
        intro h
        dsimp only at h
        injection h with he
        subst he
        exact parse_ndef_record_ne_fuel _ _ _ hr
      | ok np =>
        obtain ⟨n2, p2⟩ := np
        dsimp only
        have hb := parse_ndef_record_ok_bounds _ _ _ _ _ hr
        apply ih n2 p2 end_ mn
        rw [hb.2.2]
        omega
    · simp

theorem parse_ndef_message_loop_mono (f : Nat) :
    ∀ (g : Nat) (ndef : Ndef) (pos end_ : Int) (mn : Nat), f ≤ g →
      parse_ndef_message_loop f ndef pos end_ mn ≠ .error .fuelExhausted →
      parse_ndef_message_loop g ndef pos end_ mn =
        parse_ndef_message_loop f ndef pos end_ mn := by
  induction f with
  | zero =>
    intro g ndef pos end_ mn hfg hne
    exact absurd rfl hne
  | succ f ih =>
    intro g ndef pos end_ mn hfg hne
    cases g with
    | zero => omega
    | succ g =>
      unfold parse_ndef_message_loop at hne ⊢
      by_cases hlt : pos < end_
      · simp only [if_pos hlt] at hne ⊢
        cases hr : parse_ndef_record ndef pos mn with
        | error e => simp only [hr]
        | ok np =>
          obtain ⟨n2, p2⟩ := np
          simp only [hr] at hne ⊢
          exact ih g n2 p2 end_ mn (by omega) hne
      · simp only [if_neg hlt]

theorem ndef_read_tlv_len_ok (ndef : Ndef) (lt : Nat) (pos tl p2 : Int)
    (h : ndef_read_tlv_len ndef lt pos = .ok (tl, p2)) :
    0 ≤ tl ∧ pos ≤ p2 ∧ p2 ≤ pos + 2 := by
  unfold ndef_read_tlv_len at h
  split_ifs at h
  · cases h
    exact ⟨Int.natCast_nonneg _, by omega, by omega⟩
  · cases h1 : ndef.get pos 2 with
    | error e => rw [h1] at h; exact Except.noConfusion h
    | ok lw =>
      rw [h1] at h
      cases h
      exact ⟨Int.natCast_nonneg _, by omega, by omega⟩

@[simp] theorem ndef_read_tlv_len_ne_fuel (ndef : Ndef) (lt : Nat) (pos : Int) :
    ¬ ndef_read_tlv_len ndef lt pos = .error .fuelExhausted := by
  unfold ndef_read_tlv_len
  intro h
  split_ifs at h <;> (repeat' split at h) <;> simp_all

theorem parse_ndef_message_ok (fuel : Nat) (ndef : Ndef) (pos length : Int)
    (mn : Nat) (n' : Ndef) (pos' : Int)
    (h : parse_ndef_message fuel ndef pos length mn = .ok (n', pos')) :
    pos ≤ pos' ∧ n'.data = ndef.data :=
  parse_ndef_message_loop_ok fuel ndef pos (pos + length) mn n' pos' h

theorem parse_ndef_message_no_fuel (fuel : Nat) (ndef : Ndef) (pos length : Int)
    (mn : Nat) (hf : ((ndef.data.length : Int) - pos).toNat + 1 ≤ fuel) :
    parse_ndef_message fuel ndef pos length mn ≠ .error .fuelExhausted :=
  parse_ndef_message_loop_no_fuel fuel ndef pos (pos + length) mn hf

theorem parse_ndef_message_mono (f g : Nat) (ndef : Ndef) (pos length : Int)
    (mn : Nat) (hfg : f ≤ g)
    (hne : parse_ndef_message f ndef pos length mn ≠ .error .fuelExhausted) :
    parse_ndef_message g ndef pos length mn = parse_ndef_message f ndef pos length mn :=
  parse_ndef_message_loop_mono f g ndef pos (pos + length) mn hfg hne

theorem parse_ndef_tlv_loop_no_fuel (fuel : Nat) :
    ∀ (ndef : Ndef) (pos end_ : Int) (cnt : Nat),
      end_ ≤ (ndef.data.length : Int) →
      ((ndef.data.length : Int) - pos).toNat + 1 ≤ fuel →
      parse_ndef_tlv_loop fuel ndef pos end_ cnt ≠ .error .fuelExhausted := by
  induction fuel with
  | zero => intro ndef pos end_ cnt he hf; omega
  | succ f ih =>
    intro ndef pos end_ cnt he hf
    unfold parse_ndef_tlv_loop
    by_cases hlt : pos < end_
    · simp only [if_pos hlt]
      cases hg : ndef.get pos 1 with
      | error e =>
        intro h
        dsimp only at h
        injection h with hee
        subst hee
        exact Ndef.get_ne_fuel _ _ _ hg
      | ok tb =>
        dsimp only
        by_cases hpad : byte0 tb = NdefTlvPadding
        · simp only [if_pos hpad]
          exact ih ndef (pos + 1) end_ cnt he (by omega)
        · simp only [if_neg hpad]
          by_cases hterm : byte0 tb = NdefTlvTerminator
          · simp only [if_pos hterm]
            simp
          · simp only [if_neg hterm]
            by_cases hknown : byte0 tb = NdefTlvLockControl ∨ byte0 tb = NdefTlvMemoryControl ∨
                byte0 tb = NdefTlvProprietary ∨ byte0 tb = NdefTlvNdefMessage
            · simp only [if_pos hknown]
              cases hlb : ndef.get (pos + 1) 1 with
              | error e =>
                intro h
                dsimp only at h
                injection h with hee
                subst hee
                exact Ndef.get_ne_fuel _ _ _ hlb
              | ok lb =>
                dsimp only
                cases hsl : ndef_read_tlv_len ndef (byte0 lb) (pos + 1 + 1) with
                | error e =>
                  intro h
                  dsimp only at h
                  injection h with hee
                  subst hee
                  exact ndef_read_tlv_len_ne_fuel _ _ _ hsl
                | ok tp =>
                  obtain ⟨tl, p2⟩ := tp
                  dsimp only
                  have hb := ndef_read_tlv_len_ok _ _ _ _ _ hsl
                  by_cases hmsg : byte0 tb ≠ NdefTlvNdefMessage
                  · simp only [if_pos hmsg]
                    exact ih ndef (p2 + tl) end_ cnt he (by omega)
                  · simp only [if_neg hmsg]
                    cases hm : parse_ndef_message f ndef p2 tl (cnt + 1) with
                    | error e =>
                      intro h
                      dsimp only at h
                      injection h with hee
                      subst hee
                      exact parse_ndef_message_no_fuel f ndef p2 tl (cnt + 1) (by omega) hm
                    | ok np =>
                      obtain ⟨n2, p3⟩ := np
                      dsimp only
                      have hmo := parse_ndef_message_ok f ndef p2 tl (cnt + 1) n2 p3 hm
                      apply ih n2 p3 end_ (cnt + 1)
                      · rw [hmo.2]; exact he
                      · rw [hmo.2]; omega
            · simp only [if_neg hknown]
              simp
    · simp only [if_neg hlt]
      simp

theorem parse_ndef_tlv_loop_mono (f : Nat) :
    ∀ (g : Nat) (ndef : Ndef) (pos end_ : Int) (cnt : Nat), f ≤ g →
      parse_ndef_tlv_loop f ndef pos end_ cnt ≠ .error .fuelExhausted →
      parse_ndef_tlv_loop g ndef pos end_ cnt =
        parse_ndef_tlv_loop f ndef pos end_ cnt := by
  induction f with
  | zero => intro g ndef pos end_ cnt hfg hne; exact absurd rfl hne
  | succ f ih =>
    intro g ndef pos end_ cnt hfg hne
    cases g with
    | zero => omega
    | succ g =>
      unfold parse_ndef_tlv_loop at hne ⊢
      by_cases hlt : pos < end_
      · simp only [if_pos hlt] at hne ⊢
        cases hg : ndef.get pos 1 with
        | error e => simp only [hg]
        | ok tb =>
          simp only [hg] at hne ⊢
          by_cases hpad : byte0 tb = NdefTlvPadding
          · simp only [if_pos hpad] at hne ⊢
            exact ih g ndef (pos + 1) end_ cnt (by omega) hne
          · simp only [if_neg hpad] at hne ⊢
            by_cases hterm : byte0 tb = NdefTlvTerminator
            · simp only [if_pos hterm]
            · simp only [if_neg hterm] at hne ⊢
              by_cases hknown : byte0 tb = NdefTlvLockControl ∨
                  byte0 tb = NdefTlvMemoryControl ∨
                  byte0 tb = NdefTlvProprietary ∨ byte0 tb = NdefTlvNdefMessage
              · simp only [if_pos hknown] at hne ⊢
                cases hlb : ndef.get (pos + 1) 1 with
                | error e => simp only [hlb]
                | ok lb =>
                  simp only [hlb] at hne ⊢
                  cases hsl : ndef_read_tlv_len ndef (byte0 lb) (pos + 1 + 1) with
                  | error e => simp only [hsl]
                  | ok tp =>
                    obtain ⟨tl, p2⟩ := tp
                    simp only [hsl] at hne ⊢
                    by_cases hmsg : byte0 tb ≠ NdefTlvNdefMessage
                    · simp only [if_pos hmsg] at hne ⊢
                      exact ih g ndef (p2 + tl) end_ cnt (by omega) hne
                    · simp only [if_neg hmsg] at hne ⊢
                      have hmne : parse_ndef_message f ndef p2 tl (cnt + 1) ≠
                          .error .fuelExhausted := by
                        intro hx
                        rw [hx] at hne
                        exact hne rfl
                      rw [parse_ndef_message_mono f g ndef p2 tl (cnt + 1) (by omega) hmne]
                      cases hm : parse_ndef_message f ndef p2 tl (cnt + 1) with
                      | error e => simp only [hm]
                      | ok np =>
                        obtain ⟨n2, p3⟩ := np
                        simp only [hm] at hne ⊢
                        exact ih g n2 p3 end_ (cnt + 1) (by omega) hne
              · simp only [if_neg hknown]
      · simp only [if_neg hlt]

/-- Reading a single byte strictly inside the buffer. -/
theorem Ndef.get_one (n : Ndef) (pos : Int) (h0 : 0 ≤ pos)
    (h1 : pos + 1 ≤ (n.data.length : Int)) :
    n.get pos 1 = .ok [n.data.getD pos.toNat 0] := by
  rw [Ndef.get_ok_val n pos 1 h1, pySlice_of_nonneg n.data pos 1 h0 (by omega) h1]
  have hlt : pos.toNat < n.data.length := by omega
  rw [List.getD_eq_getElem _ _ hlt, List.drop_eq_getElem_cons hlt]
  rfl

/-- C9: parsing always terminates.  A successful record decode strictly
advances the cursor, and with fuel `len(buffer) + 1` — one unit per loop
iteration — the TLV scan of the whole buffer never exhausts its fuel, i.e.
the loops complete within at most `len(buffer)` iterations or abort with a
genuine parse error. -/
theorem claim_C9 :
    (∀ (ndef : Ndef) (pos : Int) (mn : Nat) (n' : Ndef) (pos' : Int),
      parse_ndef_record ndef pos mn = .ok (n', pos') → pos < pos') ∧
    (∀ data : List Byte,
      parse_ndef_tlv (data.length + 1) ⟨data, ""⟩ 0 (data.length : Int) 0 ≠
        .error .fuelExhausted) := by
  constructor
  · intro ndef pos mn n' pos' h
    have hb := parse_ndef_record_ok_bounds ndef pos mn n' pos' h
    omega
  · intro data
    unfold parse_ndef_tlv
    apply parse_ndef_tlv_loop_no_fuel
    · simp
    · simp

/-- Witness for C9: a concrete successful record decode advances the cursor,
and a concrete scan does not exhaust its fuel. -/
theorem claim_C9_witness :
    (2 : Int) < 13 ∧
    parse_ndef_tlv 15 ⟨[0x03, 0x0B, 0xD1, 0x01, 0x07, 0x55, 0x01,
        0x6E, 0x66, 0x63, 0x2E, 0x72, 0x65, 0xFE], ""⟩ 0 14 0 ≠
      .error .fuelExhausted :=
  ⟨claim_C9.1 ⟨[0x03, 0x0B, 0xD1, 0x01, 0x07, 0x55, 0x01,
        0x6E, 0x66, 0x63, 0x2E, 0x72, 0x65, 0xFE], ""⟩ 2 1
      ⟨[0x03, 0x0B, 0xD1, 0x01, 0x07, 0x55, 0x01,
        0x6E, 0x66, 0x63, 0x2E, 0x72, 0x65, 0xFE], "URI\nhttp://www.nfc.re\n"⟩ 13
      (by rfl),
    claim_C9.2 [0x03, 0x0B, 0xD1, 0x01, 0x07, 0x55, 0x01,
        0x6E, 0x66, 0x63, 0x2E, 0x72, 0x65, 0xFE]⟩

/-- C10: the public entry point is total.  For every input buffer the result
is a string of exactly one of the following forms: the out-of-bounds error
message, the chunked-record error message, the no-messages notice, or the
stripped accumulated output of a successful scan; no other outcome (in
particular no fuel exhaustion of the loop encoding) is possible. -/
theorem claim_C10 (data : List Byte) :
    parse_ndef data = "Error during parsing: Out-of-bounds access in NDEF data" ∨
    parse_ndef data = "Error during parsing: Chunked records not supported" ∨
    parse_ndef data = "No NDEF messages found." ∨
    ∃ (n : Ndef) (c : Nat),
      parse_ndef_tlv (data.length + 1) ⟨data, ""⟩ 0 (data.length : Int) 0 =
        .ok (n, c) ∧ c ≠ 0 ∧ parse_ndef data = pyStrip n.output := by
  unfold parse_ndef
  cases h : parse_ndef_tlv (data.length + 1) ⟨data, ""⟩ 0 (data.length : Int) 0 with
  | error e =>
    cases e with
    | outOfBounds => left; rfl
    | chunkedRecord => right; left; rfl
    | fuelExhausted =>
      exfalso
      revert h
      unfold parse_ndef_tlv
      apply parse_ndef_tlv_loop_no_fuel <;> simp
  | ok nc =>
    obtain ⟨n, c⟩ := nc
    by_cases hc : c = 0
    · subst hc
      right; right; left
      rfl
    · right; right; right
      exact ⟨n, c, rfl, hc, by simp [hc]⟩

/-- C6: when the TLV scanner reads a type byte other than Padding(0x00),
LockControl(0x01), MemoryControl(0x02), NdefMessage(0x03), Proprietary(0xFD)
or Terminator(0xFE), it stops immediately and signals zero parsed messages,
whatever the count accumulated so far. -/
theorem claim_C6 (fuel : Nat) (ndef : Ndef) (pos end_ : Int) (cnt : Nat) (b : Byte)
    (hlt : pos < end_) (hg : ndef.get pos 1 = .ok [b])
    (hb : ¬(b = 0x00 ∨ b = 0x01 ∨ b = 0x02 ∨ b = 0x03 ∨ b = 0xFD ∨ b = 0xFE)) :
    parse_ndef_tlv_loop (fuel + 1) ndef pos end_ cnt = .ok (ndef, 0) := by
  push_neg at hb
  obtain ⟨h0, h1, h2, h3, hfd, hfe⟩ := hb
  unfold parse_ndef_tlv_loop
  rw [if_pos hlt, hg]
  dsimp only [byte0, List.headD]
  rw [if_neg (by simpa [NdefTlvPadding] using h0),
    if_neg (by simpa [NdefTlvTerminator] using hfe),
    if_neg (by simp [NdefTlvLockControl, NdefTlvMemoryControl, NdefTlvProprietary,
      NdefTlvNdefMessage]; exact ⟨h1, h2, hfd, h3⟩)]

/-- Witness for C6: a concrete scan state stopping on the unassigned TLV type
byte 0x04 reports zero messages despite one already-decoded message. -/
theorem claim_C6_witness :
    parse_ndef_tlv_loop 6 ⟨[0x04, 0x00], "Text\nX\n"⟩ 0 2 1 =
      .ok (⟨[0x04, 0x00], "Text\nX\n"⟩, 0) :=
  claim_C6 5 ⟨[0x04, 0x00], "Text\nX\n"⟩ 0 2 1 0x04 (by decide) (by rfl) (by decide)

/-- C8: when the TLV scanner reads a terminator type byte, it returns the
accumulated state and count at once; in particular the bytes of `r`, all of
which lie after the terminator, never influence the result. -/
theorem claim_C8 (fuel : Nat) (d r : List Byte) (out : String) (pos end_ : Int)
    (cnt : Nat) (hpos : 0 ≤ pos) (hlt : pos < end_)
    (hin : pos + 1 ≤ (d.length : Int))
    (hb : d.getD pos.toNat 0 = NdefTlvTerminator) :
    parse_ndef_tlv_loop (fuel + 1) ⟨d ++ r, out⟩ pos end_ cnt =
      .ok (⟨d ++ r, out⟩, cnt) := by
  have hg : (Ndef.mk (d ++ r) out).get pos 1 = .ok [d.getD pos.toNat 0] := by
    have hlen : pos + 1 ≤ ((d ++ r).length : Int) := by
      simp [List.length_append]; omega
    rw [Ndef.get_one ⟨d ++ r, out⟩ pos hpos hlen]
    have : (d ++ r).getD pos.toNat 0 = d.getD pos.toNat 0 :=
      List.getD_append _ _ _ _ (by omega)
    rw [this]
  unfold parse_ndef_tlv_loop
  rw [if_pos hlt, hg]
  dsimp only [byte0, List.headD]
  rw [hb]
  rw [if_neg (by simp [NdefTlvTerminator, NdefTlvPadding]), if_pos rfl]

/-- Witness for C8: stopping at a concrete terminator, identical results for
two different suffixes. -/
theorem claim_C8_witness :
    parse_ndef_tlv_loop 9 ⟨[0x00, 0xFE] ++ [0x07, 0x08], ""⟩ 1 8 3 =
      .ok (⟨[0x00, 0xFE] ++ [0x07, 0x08], ""⟩, 3) :=
  claim_C8 8 [0x00, 0xFE] [0x07, 0x08] "" 1 8 3 (by decide) (by decide)
    (by decide) (by decide)

/-- C4: a record whose flags byte has the CF bit (bit 5) set makes the record
decoder fail with the unsupported-chunking error, and whenever the TLV scan
of a whole buffer fails with that error, the entry point returns exactly the
single fixed error message — none of the text formatted for earlier records
appears in the result. -/
theorem claim_C4 :
    (∀ (ndef : Ndef) (pos : Int) (mn : Nat) (fb : List Byte),
      ndef.get pos 1 = .ok fb → (byte0 fb >>> 5) &&& 0x1 ≠ 0 →
      parse_ndef_record ndef pos mn = .error .chunkedRecord) ∧
    (∀ data : List Byte,
      parse_ndef_tlv (data.length + 1) ⟨data, ""⟩ 0 (data.length : Int) 0 =
        .error .chunkedRecord →
      parse_ndef data = "Error during parsing: Chunked records not supported") := by
  constructor
  · intro ndef pos mn fb hg hcf
    unfold parse_ndef_record
    rw [hg]
    dsimp only
    rw [if_pos hcf]
  · intro data h
    unfold parse_ndef
    rw [h]
    rfl

/-- Witness for C4 on the buffer 03 03 B1 01 00, whose record flags byte 0xB1
has CF set: the record decoder aborts and the whole parse returns the fixed
error message even though a message TLV was being decoded. -/
theorem claim_C4_witness :
    parse_ndef_record ⟨[0x03, 0x03, 0xB1, 0x01, 0x00], ""⟩ 2 1 =
      .error .chunkedRecord ∧
    parse_ndef [0x03, 0x03, 0xB1, 0x01, 0x00] =
      "Error during parsing: Chunked records not supported" :=
  ⟨claim_C4.1 ⟨[0x03, 0x03, 0xB1, 0x01, 0x00], ""⟩ 2 1 [0xB1] (by rfl) (by decide),
    claim_C4.2 [0x03, 0x03, 0xB1, 0x01, 0x00] (by rfl)⟩

/-- C3: the 14-byte example buffer parses to exactly one NDEF message whose
rendered text is the URI record with prefix code 1 ("http://www.") followed
by "nfc.re". -/
theorem claim_C3 :
    parse_ndef_tlv 15 ⟨[0x03, 0x0B, 0xD1, 0x01, 0x07, 0x55, 0x01,
        0x6E, 0x66, 0x63, 0x2E, 0x72, 0x65, 0xFE], ""⟩ 0 14 0 =
      .ok (⟨[0x03, 0x0B, 0xD1, 0x01, 0x07, 0x55, 0x01,
        0x6E, 0x66, 0x63, 0x2E, 0x72, 0x65, 0xFE], "URI\nhttp://www.nfc.re\n"⟩, 1) ∧
    parse_ndef [0x03, 0x0B, 0xD1, 0x01, 0x07, 0x55, 0x01,
        0x6E, 0x66, 0x63, 0x2E, 0x72, 0x65, 0xFE] = "URI\nhttp://www.nfc.re" :=
  ⟨by rfl, by decide⟩

/-- C7 counterexample: on the buffer 03 05 F1 01 01 55 00 the parse does fail
and returns the error message alone, but the error is the chunked-record one
(flags byte 0xF1 has CF set, checked before any length field is used), not
the out-of-bounds error the claim names. -/
theorem claim_C7_counterexample :
    parse_ndef [0x03, 0x05, 0xF1, 0x01, 0x01, 0x55, 0x00] =
      "Error during parsing: Chunked records not supported" ∧
    "Error during parsing: Chunked records not supported" ≠
      "Error during parsing: Out-of-bounds access in NDEF data" :=
  ⟨by decide, by decide⟩

/-- C7 (amended): the truncated example buffer makes the parse fail with the
unsupported-chunking error — its record flags byte 0xF1 has CF set and the
record decoder aborts before reading any length field — and the result is
that single error message with no partial URI text. -/
theorem claim_C7 :
    parse_ndef_record ⟨[0x03, 0x05, 0xF1, 0x01, 0x01, 0x55, 0x00], ""⟩ 2 1 =
      .error .chunkedRecord ∧
    parse_ndef [0x03, 0x05, 0xF1, 0x01, 0x01, 0x55, 0x00] =
      "Error during parsing: Chunked records not supported" :=
  ⟨by rfl, by decide⟩

/-- C2 counterexample: in the buffer 03 01 D1 ... FE the NdefMessage TLV
declares a 1-byte value occupying exactly [2, 3), yet the record starting at
position 2 declares a 7-byte payload reaching position 13.  The message
decoder does not abort: it decodes the record, reads far beyond the TLV's
declared byte range, returns position 13, and the whole parse succeeds with
the record's full text. -/
theorem claim_C2_counterexample :
    parse_ndef_message 15 ⟨[0x03, 0x01, 0xD1, 0x01, 0x07, 0x55, 0x01,
        0x6E, 0x66, 0x63, 0x2E, 0x72, 0x65, 0xFE], ""⟩ 2 1 1 =
      .ok (⟨[0x03, 0x01, 0xD1, 0x01, 0x07, 0x55, 0x01,
        0x6E, 0x66, 0x63, 0x2E, 0x72, 0x65, 0xFE], "URI\nhttp://www.nfc.re\n"⟩, 13) ∧
    (2 : Int) + 1 < 13 ∧
    parse_ndef [0x03, 0x01, 0xD1, 0x01, 0x07, 0x55, 0x01,
        0x6E, 0x66, 0x63, 0x2E, 0x72, 0x65, 0xFE] = "URI\nhttp://www.nfc.re" :=
  ⟨by rfl, by decide, by decide⟩

/-- C2 (amended): record decoding is bounds-checked against the whole input
buffer, not against the enclosing TLV's declared value range: a successful
record decode always ends within the buffer (every header field and the
declared payload fit in the buffer, else the decode aborts with an error),
but it may extend past the end of the enclosing TLV's value when more of the
buffer follows. -/
theorem claim_C2 (ndef : Ndef) (pos : Int) (mn : Nat) (n' : Ndef) (pos' : Int)
    (h : parse_ndef_record ndef pos mn = .ok (n', pos')) :
    pos' ≤ (ndef.data.length : Int) :=
  (parse_ndef_record_ok_bounds ndef pos mn n' pos' h).2.1

/-- Witness for C2 (amended) at a concrete record decode. -/
theorem claim_C2_witness :
    (13 : Int) ≤ ([0x03, 0x01, 0xD1, 0x01, 0x07, 0x55, 0x01,
        0x6E, 0x66, 0x63, 0x2E, 0x72, 0x65, 0xFE] : List Byte).length :=
  claim_C2 ⟨[0x03, 0x01, 0xD1, 0x01, 0x07, 0x55, 0x01,
        0x6E, 0x66, 0x63, 0x2E, 0x72, 0x65, 0xFE], ""⟩ 2 1
    ⟨[0x03, 0x01, 0xD1, 0x01, 0x07, 0x55, 0x01,
        0x6E, 0x66, 0x63, 0x2E, 0x72, 0x65, 0xFE], "URI\nhttp://www.nfc.re\n"⟩ 13
    (by rfl)

/-! ### Position-shift lemmas: parsing is invariant under a prefix change
that only re-encodes a length field, because every read at or after the
current position addresses the shared suffix. -/

theorem pyBound_append (c s : List Byte) (x : Int) (hx : 0 ≤ x) :
    pyBound (c ++ s).length ((c.length : Int) + x) = c.length + pyBound s.length x := by
  unfold pyBound
  rw [if_neg (by omega), if_neg (by omega)]
  simp only [List.length_append]
  omega

theorem pySlice_append (c s : List Byte) (a b : Int) (ha : 0 ≤ a) (hb : 0 ≤ b) :
    pySlice (c ++ s) ((c.length : Int) + a) ((c.length : Int) + b) = pySlice s a b := by
  unfold pySlice
  rw [pyBound_append c s a ha, pyBound_append c s b hb]
  rw [List.take_append, List.drop_append]

theorem Ndef.get_append (c s : List Byte) (o o' : String) (q n : Int)
    (hq : 0 ≤ q) (hqn : 0 ≤ q + n) :
    Ndef.get ⟨c ++ s, o⟩ ((c.length : Int) + q) n = Ndef.get ⟨s, o'⟩ q n := by
  unfold Ndef.get
  dsimp only
  have hlen : (((c ++ s).length : Nat) : Int) = (c.length : Int) + s.length := by
    simp
  by_cases hb : q + n > (s.length : Int)
  · rw [if_pos (by omega), if_pos hb]
  · rw [if_neg (by omega), if_neg hb]
    have harr : (c.length : Int) + q + n = (c.length : Int) + (q + n) := by ring
    rw [harr, pySlice_append c s q (q + n) hq hqn]

theorem parse_ndef_uri_shift (c s : List Byte) (o : String) (q length : Int)
    (hq : 0 ≤ q) (hlen : 0 ≤ length) :
    parse_ndef_uri ⟨c ++ s, o⟩ ((c.length : Int) + q) length =
      (parse_ndef_uri ⟨s, o⟩ q length).map (fun n => ⟨c ++ s, n.output⟩) := by
  unfold parse_ndef_uri
  rw [Ndef.get_append c s o o q 1 hq (by omega)]
  cases h1 : Ndef.get ⟨s, o⟩ q 1 with
  | error e => rfl
  | ok pb =>
    dsimp only
    have e1 : (c.length : Int) + q + 1 = (c.length : Int) + (q + 1) := by ring
    rw [e1, Ndef.get_append c s o o (q + 1) (length - 1) (by omega) (by omega)]
    cases h2 : Ndef.get ⟨s, o⟩ (q + 1) (length - 1) with
    | error e => rfl
    | ok payload => rfl

theorem parse_ndef_text_shift (c s : List Byte) (o : String) (q length : Int)
    (hq : 0 ≤ q) (hlen : 0 ≤ length) :
    parse_ndef_text ⟨c ++ s, o⟩ ((c.length : Int) + q) length =
      (parse_ndef_text ⟨s, o⟩ q length).map (fun n => ⟨c ++ s, n.output⟩) := by
  unfold parse_ndef_text
  rw [Ndef.get_append c s o o q 1 hq (by omega)]
  cases h1 : Ndef.get ⟨s, o⟩ q 1 with
  | error e => rfl
  | ok lb =>
    dsimp only
    have e1 : (c.length : Int) + q + 1 = (c.length : Int) + (q + 1) := by ring
    rw [e1, Ndef.get_append c s o o (q + 1) (byte0 lb : Nat) (by omega)
      (by have := Int.natCast_nonneg (byte0 lb); omega)]
    cases h2 : Ndef.get ⟨s, o⟩ (q + 1) (byte0 lb : Nat) with
    | error e => rfl
    | ok lang =>
      dsimp only
      have e2 : (c.length : Int) + (q + 1) + (byte0 lb : Nat) =
          (c.length : Int) + (q + 1 + (byte0 lb : Nat)) := by ring
      rw [e2, Ndef.get_append c s o o (q + 1 + (byte0 lb : Nat))
        (length - 1 - (byte0 lb : Nat))
        (by have := Int.natCast_nonneg (byte0 lb); omega) (by omega)]
      cases h3 : Ndef.get ⟨s, o⟩ (q + 1 + (byte0 lb : Nat))
          (length - 1 - (byte0 lb : Nat)) with
      | error e => rfl
      | ok payload => rfl

theorem parse_ndef_bt_shift (c s : List Byte) (o : String) (q length : Int)
    (hq : 0 ≤ q) (hlen : 0 ≤ length) :
    parse_ndef_bt ⟨c ++ s, o⟩ ((c.length : Int) + q) length =
      (parse_ndef_bt ⟨s, o⟩ q length).map (fun n => ⟨c ++ s, n.output⟩) := by
  unfold parse_ndef_bt
  have e1 : (c.length : Int) + q + 2 = (c.length : Int) + (q + 2) := by ring
  rw [e1, Ndef.get_append c s o o (q + 2) (length - 2) (by omega) (by omega)]
  cases h1 : Ndef.get ⟨s, o⟩ (q + 2) (length - 2) with
  | error e => rfl
  | ok mac => rfl

theorem parse_ndef_vcard_shift (c s : List Byte) (o : String) (q length : Int)
    (hq : 0 ≤ q) (hlen : 0 ≤ length) :
    parse_ndef_vcard ⟨c ++ s, o⟩ ((c.length : Int) + q) length =
      (parse_ndef_vcard ⟨s, o⟩ q length).map (fun n => ⟨c ++ s, n.output⟩) := by
  unfold parse_ndef_vcard
  rw [Ndef.get_append c s o o q length hq (by omega)]
  cases h1 : Ndef.get ⟨s, o⟩ q length with
  | error e => rfl
  | ok payload => rfl

theorem parse_ndef_wifi_shift (c s : List Byte) (o : String) (q length : Int)
    (hq : 0 ≤ q) (hlen : 0 ≤ length) :
    parse_ndef_wifi ⟨c ++ s, o⟩ ((c.length : Int) + q) length =
      (parse_ndef_wifi ⟨s, o⟩ q length).map (fun n => ⟨c ++ s, n.output⟩) := by
  unfold parse_ndef_wifi
  rw [Ndef.get_append c s o o q length hq (by omega)]
  cases h1 : Ndef.get ⟨s, o⟩ q length with
  | error e => rfl
  | ok payload => rfl

theorem Ndef.dump_shift (c s : List Byte) (o : String) (label : String)
    (q length : Int) (fh : Bool) (hq : 0 ≤ q) (hlen : 0 ≤ length) :
    Ndef.dump ⟨c ++ s, o⟩ label ((c.length : Int) + q) length fh =
      (Ndef.dump ⟨s, o⟩ label q length fh).map (fun n => ⟨c ++ s, n.output⟩) := by
  unfold Ndef.dump
  rw [Ndef.get_append c s o o q length hq (by omega)]
  cases h1 : Ndef.get ⟨s, o⟩ q length with
  | error e => rfl
  | ok chunk =>
    dsimp only
    by_cases hp : (!fh && chunk.all isPrintableByte) = true
    · rw [if_pos hp, if_pos hp]
      rfl
    · rw [if_neg hp, if_neg hp]
      rfl

theorem ndef_record_dispatch_shift (c s : List Byte) (o : String) (tnf : Nat)
    (tf : List Byte) (q plen : Int) (hq : 0 ≤ q) (hplen : 0 ≤ plen) :
    ndef_record_dispatch ⟨c ++ s, o⟩ tnf tf ((c.length : Int) + q) plen =
      (ndef_record_dispatch ⟨s, o⟩ tnf tf q plen).map (fun n => ⟨c ++ s, n.output⟩) := by
  unfold ndef_record_dispatch
  split_ifs
  · exact parse_ndef_uri_shift c s o q plen hq hplen
  · exact parse_ndef_text_shift c s o q plen hq hplen
  · exact Ndef.dump_shift c s o _ q plen false hq hplen
  · exact parse_ndef_bt_shift c s o q plen hq hplen
  · exact parse_ndef_vcard_shift c s o q plen hq hplen
  · exact parse_ndef_wifi_shift c s o q plen hq hplen
  · exact Ndef.dump_shift c s o _ q plen false hq hplen
  · exact Ndef.dump_shift c s o _ q plen false hq hplen

theorem ndef_read_payload_len_shift (c s : List Byte) (o o' : String) (sr : Nat)
    (q : Int) (hq : 0 ≤ q) :
    ndef_read_payload_len ⟨c ++ s, o⟩ sr ((c.length : Int) + q) =
      (ndef_read_payload_len ⟨s, o'⟩ sr q).map
        (fun p => (p.1, (c.length : Int) + p.2)) := by
  unfold ndef_read_payload_len
  split_ifs
  · rw [Ndef.get_append c s o o' q 1 hq (by omega)]
    cases h1 : Ndef.get ⟨s, o'⟩ q 1 with
    | error e => rfl
    | ok pb =>
      dsimp only [Except.map]
      rw [show (c.length : Int) + q + 1 = (c.length : Int) + (q + 1) from by ring]
  · rw [Ndef.get_append c s o o' q 4 hq (by omega)]
    cases h1 : Ndef.get ⟨s, o'⟩ q 4 with
    | error e => rfl
    | ok pb =>
      dsimp only [Except.map]
      rw [show (c.length : Int) + q + 4 = (c.length : Int) + (q + 4) from by ring]

theorem ndef_read_id_len_shift (c s : List Byte) (o o' : String) (il : Nat)
    (q : Int) (hq : 0 ≤ q) :
    ndef_read_id_len ⟨c ++ s, o⟩ il ((c.length : Int) + q) =
      (ndef_read_id_len ⟨s, o'⟩ il q).map
        (fun p => (p.1, (c.length : Int) + p.2)) := by
  unfold ndef_read_id_len
  split_ifs
  · rw [Ndef.get_append c s o o' q 1 hq (by omega)]
    cases h1 : Ndef.get ⟨s, o'⟩ q 1 with
    | error e => rfl
    | ok ib =>
      dsimp only [Except.map]
      rw [show (c.length : Int) + q + 1 = (c.length : Int) + (q + 1) from by ring]
  · rfl

theorem ndef_read_tlv_len_shift (c s : List Byte) (o o' : String) (lt : Nat)
    (q : Int) (hq : 0 ≤ q) :
    ndef_read_tlv_len ⟨c ++ s, o⟩ lt ((c.length : Int) + q) =
      (ndef_read_tlv_len ⟨s, o'⟩ lt q).map
        (fun p => (p.1, (c.length : Int) + p.2)) := by
  unfold ndef_read_tlv_len
  split_ifs
  · rfl
  · rw [Ndef.get_append c s o o' q 2 hq (by omega)]
    cases h1 : Ndef.get ⟨s, o'⟩ q 2 with
    | error e => rfl
    | ok lw =>
      dsimp only [Except.map]
      rw [show (c.length : Int) + q + 2 = (c.length : Int) + (q + 2) from by ring]

theorem parse_ndef_record_shift (c s : List Byte) (o : String) (q : Int) (mn : Nat)
    (hq : 0 ≤ q) :
    parse_ndef_record ⟨c ++ s, o⟩ ((c.length : Int) + q) mn =
      (parse_ndef_record ⟨s, o⟩ q mn).map
        (fun p => (⟨c ++ s, p.1.output⟩, (c.length : Int) + p.2)) := by
  unfold parse_ndef_record
  rw [Ndef.get_append c s o o q 1 hq (by omega)]
  cases h1 : Ndef.get ⟨s, o⟩ q 1 with
  | error e => rfl
  | ok fb =>
    dsimp only
    by_cases hcf : (byte0 fb >>> 5) &&& 0x1 ≠ 0
    · rw [if_pos hcf, if_pos hcf]
      rfl
    · rw [if_neg hcf, if_neg hcf]
      have e1 : (c.length : Int) + q + 1 = (c.length : Int) + (q + 1) := by ring
      rw [e1, Ndef.get_append c s o o (q + 1) 1 (by omega) (by omega)]
      cases h2 : Ndef.get ⟨s, o⟩ (q + 1) 1 with
      | error e => rfl
      | ok tb =>
        dsimp only
        have e2 : (c.length : Int) + (q + 1) + 1 = (c.length : Int) + (q + 1 + 1) := by
          ring
        rw [e2, ndef_read_payload_len_shift c s o o _ (q + 1 + 1) (by omega)]
        cases h3 : ndef_read_payload_len ⟨s, o⟩ ((byte0 fb >>> 4) &&& 0x1)
            (q + 1 + 1) with
        | error e => rfl
        | ok pp =>
          obtain ⟨plen, p2⟩ := pp
          dsimp only [Except.map]
          have hp := ndef_read_payload_len_ok _ _ _ _ _ h3
          rw [ndef_read_id_len_shift c s o o _ p2 (by omega)]
          cases h4 : ndef_read_id_len ⟨s, o⟩ ((byte0 fb >>> 3) &&& 0x1) p2 with
          | error e => rfl
          | ok ii =>
            obtain ⟨idl, p3⟩ := ii
            dsimp only [Except.map]
            have hi := ndef_read_id_len_ok _ _ _ _ _ h4
            rw [Ndef.get_append c s o o p3 (byte0 tb : Nat) (by omega)
              (by have := Int.natCast_nonneg (byte0 tb); omega)]
            cases h5 : Ndef.get ⟨s, o⟩ p3 (byte0 tb : Nat) with
            | error e => rfl
            | ok tf =>
              dsimp only
              have e3 : (c.length : Int) + p3 + (byte0 tb : Nat) + idl =
                  (c.length : Int) + (p3 + (byte0 tb : Nat) + idl) := by ring
              rw [e3, ndef_record_dispatch_shift c s o _ tf
                (p3 + (byte0 tb : Nat) + idl) plen
                (by have := Int.natCast_nonneg (byte0 tb); omega) hp.1]
              cases h6 : ndef_record_dispatch ⟨s, o⟩ (byte0 fb &&& 0x07) tf
                  (p3 + (byte0 tb : Nat) + idl) plen with
              | error e => rfl
              | ok m =>
                dsimp only [Except.map]
                rw [show (c.length : Int) + (p3 + (byte0 tb : Nat) + idl) + plen =
                  (c.length : Int) + (p3 + (byte0 tb : Nat) + idl + plen) from by ring]

theorem parse_ndef_message_loop_shift (fuel : Nat) :
    ∀ (c s : List Byte) (o : String) (q e : Int) (mn : Nat), 0 ≤ q →
      parse_ndef_message_loop fuel ⟨c ++ s, o⟩ ((c.length : Int) + q)
          ((c.length : Int) + e) mn =
        (parse_ndef_message_loop fuel ⟨s, o⟩ q e mn).map
          (fun p => (⟨c ++ s, p.1.output⟩, (c.length : Int) + p.2)) := by
  induction fuel with
  | zero => intro c s o q e mn hq; rfl
  | succ f ih =>
    intro c s o q e mn hq
    unfold parse_ndef_message_loop
    by_cases hlt : q < e
    · rw [if_pos (show (c.length : Int) + q < (c.length : Int) + e by omega),
        if_pos hlt]
      rw [parse_ndef_record_shift c s o q mn hq]
      cases hr : parse_ndef_record ⟨s, o⟩ q mn with
      | error e2 => rfl
      | ok np =>
        obtain ⟨n2, p2⟩ := np
        dsimp only [Except.map]
        have hb := parse_ndef_record_ok_bounds _ _ _ _ _ hr
        obtain ⟨d2, o2⟩ := n2
        have hd : d2 = s := hb.2.2
        subst hd
        exact ih c d2 o2 p2 e mn (by omega)
    · rw [if_neg (show ¬ ((c.length : Int) + q < (c.length : Int) + e) by omega),
        if_neg hlt]
      rfl

theorem parse_ndef_tlv_loop_shift (fuel : Nat) :
    ∀ (c s : List Byte) (o : String) (q e : Int) (cnt : Nat), 0 ≤ q →
      parse_ndef_tlv_loop fuel ⟨c ++ s, o⟩ ((c.length : Int) + q)
          ((c.length : Int) + e) cnt =
        (parse_ndef_tlv_loop fuel ⟨s, o⟩ q e cnt).map
          (fun p => (⟨c ++ s, p.1.output⟩, p.2)) := by
  induction fuel with
  | zero => intro c s o q e cnt hq; rfl
  | succ f ih =>
    intro c s o q e cnt hq
    unfold parse_ndef_tlv_loop
    by_cases hlt : q < e
    · rw [if_pos (show (c.length : Int) + q < (c.length : Int) + e by omega),
        if_pos hlt]
      rw [Ndef.get_append c s o o q 1 hq (by omega)]
      cases hg : Ndef.get ⟨s, o⟩ q 1 with
      | error e2 => rfl
      | ok tb =>
        dsimp only
        by_cases hpad : byte0 tb = NdefTlvPadding
        · rw [if_pos hpad, if_pos hpad]
          have e1 : (c.length : Int) + q + 1 = (c.length : Int) + (q + 1) := by ring
          rw [e1]
          exact ih c s o (q + 1) e cnt (by omega)
        · rw [if_neg hpad, if_neg hpad]
          by_cases hterm : byte0 tb = NdefTlvTerminator
          · rw [if_pos hterm, if_pos hterm]
            rfl
          · rw [if_neg hterm, if_neg hterm]
            by_cases hknown : byte0 tb = NdefTlvLockControl ∨
                byte0 tb = NdefTlvMemoryControl ∨
                byte0 tb = NdefTlvProprietary ∨ byte0 tb = NdefTlvNdefMessage
            · rw [if_pos hknown, if_pos hknown]
              have e1 : (c.length : Int) + q + 1 = (c.length : Int) + (q + 1) := by
                ring
              rw [e1, Ndef.get_append c s o o (q + 1) 1 (by omega) (by omega)]
              cases hlb : Ndef.get ⟨s, o⟩ (q + 1) 1 with
              | error e2 => rfl
              | ok lb =>
                dsimp only
                have e2 : (c.length : Int) + (q + 1) + 1 =
                    (c.length : Int) + (q + 1 + 1) := by ring
                rw [e2, ndef_read_tlv_len_shift c s o o (byte0 lb) (q + 1 + 1)
                  (by omega)]
                cases hsl : ndef_read_tlv_len ⟨s, o⟩ (byte0 lb) (q + 1 + 1) with
                | error e2 => rfl
                | ok tp =>
                  obtain ⟨tl, p2⟩ := tp
                  dsimp only [Except.map]
                  have hb := ndef_read_tlv_len_ok _ _ _ _ _ hsl
                  by_cases hmsg : byte0 tb ≠ NdefTlvNdefMessage
                  · rw [if_pos hmsg, if_pos hmsg]
                    have e3 : (c.length : Int) + p2 + tl =
                        (c.length : Int) + (p2 + tl) := by ring
                    rw [e3]
                    exact ih c s o (p2 + tl) e cnt (by omega)
                  · rw [if_neg hmsg, if_neg hmsg]
                    unfold parse_ndef_message
                    have e3 : (c.length : Int) + p2 + tl =
                        (c.length : Int) + (p2 + tl) := by ring
                    rw [e3, parse_ndef_message_loop_shift f c s o p2 (p2 + tl)
                      (cnt + 1) (by omega)]
                    cases hm : parse_ndef_message_loop f ⟨s, o⟩ p2 (p2 + tl)
                        (cnt + 1) with
                    | error e2 => rfl
                    | ok np =>
                      obtain ⟨n2, p3⟩ := np
                      dsimp only [Except.map]
                      have hmo := parse_ndef_message_loop_ok f ⟨s, o⟩ p2 (p2 + tl)
                        (cnt + 1) n2 p3 hm
                      obtain ⟨d2, o2⟩ := n2
                      have hd : d2 = s := hmo.2
                      subst hd
                      exact ih c d2 o2 p3 e (cnt + 1) (by omega)
            · rw [if_neg hknown, if_neg hknown]
              rfl
    · rw [if_neg (show ¬ ((c.length : Int) + q < (c.length : Int) + e) by omega),
        if_neg hlt]
      rfl

theorem Ndef.get_head (a : Byte) (r : List Byte) (o : String) :
    Ndef.get ⟨a :: r, o⟩ 0 1 = .ok [a] := by
  rw [Ndef.get_ok_val _ _ _ (by simp), pySlice_of_nonneg _ _ _ (by omega) (by omega)
    (by simp)]
  rfl

theorem Ndef.get_second (a b : Byte) (r : List Byte) (o : String) :
    Ndef.get ⟨a :: b :: r, o⟩ 1 1 = .ok [b] := by
  rw [Ndef.get_ok_val _ _ _ (by simp; omega), pySlice_of_nonneg _ _ _ (by omega)
    (by omega) (by simp; omega)]
  rfl

theorem Ndef.get_pair_at_2 (a b x y : Byte) (r : List Byte) (o : String) :
    Ndef.get ⟨a :: b :: x :: y :: r, o⟩ 2 2 = .ok [x, y] := by
  rw [Ndef.get_ok_val _ _ _ (by simp; omega), pySlice_of_nonneg _ _ _ (by omega)
    (by omega) (by simp; omega)]
  rfl

theorem parse_ndef_tlv_loop_shift2 (fuel : Nat) (c s : List Byte) (o : String)
    (p e q e' : Int) (cnt : Nat) (hq : 0 ≤ q)
    (hp : p = (c.length : Int) + q) (he : e = (c.length : Int) + e') :
    parse_ndef_tlv_loop fuel ⟨c ++ s, o⟩ p e cnt =
      (parse_ndef_tlv_loop fuel ⟨s, o⟩ q e' cnt).map
        (fun x => (⟨c ++ s, x.1.output⟩, x.2)) := by
  subst hp he
  exact parse_ndef_tlv_loop_shift fuel c s o q e' cnt hq

theorem parse_ndef_message_loop_shift2 (fuel : Nat) (c s : List Byte) (o : String)
    (p e q e' : Int) (mn : Nat) (hq : 0 ≤ q)
    (hp : p = (c.length : Int) + q) (he : e = (c.length : Int) + e') :
    parse_ndef_message_loop fuel ⟨c ++ s, o⟩ p e mn =
      (parse_ndef_message_loop fuel ⟨s, o⟩ q e' mn).map
        (fun x => (⟨c ++ s, x.1.output⟩, (c.length : Int) + x.2)) := by
  subst hp he
  exact parse_ndef_message_loop_shift fuel c s o q e' mn hq

theorem parse_ndef_tlv_loop_canon (f : Nat) (s : List Byte) (o : String) (q : Int)
    (cnt : Nat) (hq : 0 ≤ q) (hf : s.length + 1 ≤ f) :
    parse_ndef_tlv_loop f ⟨s, o⟩ q (s.length : Int) cnt =
      parse_ndef_tlv_loop (s.length + 1) ⟨s, o⟩ q (s.length : Int) cnt :=
  parse_ndef_tlv_loop_mono (s.length + 1) f ⟨s, o⟩ q (s.length : Int) cnt hf
    (parse_ndef_tlv_loop_no_fuel (s.length + 1) ⟨s, o⟩ q (s.length : Int) cnt
      (by simp) (by simp; omega))

theorem parse_ndef_message_loop_canon (f : Nat) (s : List Byte) (o : String)
    (q e : Int) (mn : Nat) (hq : 0 ≤ q) (hf : s.length + 1 ≤ f) :
    parse_ndef_message_loop f ⟨s, o⟩ q e mn =
      parse_ndef_message_loop (s.length + 1) ⟨s, o⟩ q e mn :=
  parse_ndef_message_loop_mono (s.length + 1) f ⟨s, o⟩ q e mn hf
    (parse_ndef_message_loop_no_fuel (s.length + 1) ⟨s, o⟩ q e mn (by simp; omega))

theorem tlv_longform_equiv (t L : Byte) (s : List Byte) (hL : L < 0xFF)
    (h0 : ¬ t = NdefTlvPadding) (hFE : ¬ t = NdefTlvTerminator)
    (hK : t = NdefTlvLockControl ∨ t = NdefTlvMemoryControl ∨
      t = NdefTlvProprietary ∨ t = NdefTlvNdefMessage) :
    parse_ndef (t :: L :: s) = parse_ndef (t :: 0xFF :: 0x00 :: L :: s) := by
  unfold parse_ndef parse_ndef_tlv
  simp only [List.length_cons, zero_add]
  rw [parse_ndef_tlv_loop.eq_2, parse_ndef_tlv_loop.eq_2]
  rw [if_pos (show (0 : Int) < ((s.length + 1 + 1 : Nat) : Int) by omega),
    if_pos (show (0 : Int) < ((s.length + 1 + 1 + 1 + 1 : Nat) : Int) by omega)]
  rw [Ndef.get_head t (L :: s) "", Ndef.get_head t (0xFF :: 0x00 :: L :: s) ""]
  dsimp only
  rw [show byte0 [t] = t from rfl]
  rw [if_neg h0, if_neg hFE, if_pos hK]
  rw [if_neg h0, if_neg hFE, if_pos hK]
  simp only [zero_add]
  rw [Ndef.get_second t L s "", Ndef.get_second t 0xFF (0x00 :: L :: s) ""]
  dsimp only
  rw [show byte0 [L] = L from rfl, show byte0 [(0xFF : Byte)] = 0xFF from rfl]
  rw [show (1 : Int) + 1 = 2 from by norm_num]
  unfold ndef_read_tlv_len
  rw [if_pos hL, if_neg (show ¬ ((0xFF : Byte) < 0xFF) by decide)]
  rw [Ndef.get_pair_at_2 t 0xFF 0x00 L s ""]
  dsimp only
  rw [show bytesToNatBE [0x00, L] = L from by
    unfold bytesToNatBE
    simp [List.foldl]]
  rw [show (2 : Int) + 2 = 4 from by norm_num]
  rw [show (t :: L :: s) = [t, L] ++ s from rfl,
    show (t :: 255 :: 0 :: L :: s) = [t, 255, 0, L] ++ s from rfl]
  by_cases hmsg : t ≠ NdefTlvNdefMessage
  · rw [if_pos hmsg, if_pos hmsg]
    rw [parse_ndef_tlv_loop_shift2 (s.length + 2) [t, L] s "" (2 + (L : Int))
      ((s.length + 1 + 1 : Nat) : Int) (L : Int) (s.length : Int) 0
      (Int.natCast_nonneg L) (by simp) (by simp; ring)]
    rw [parse_ndef_tlv_loop_shift2 (s.length + 4) [t, 255, 0, L] s "" (4 + (L : Int))
      ((s.length + 1 + 1 + 1 + 1 : Nat) : Int) (L : Int) (s.length : Int) 0
      (Int.natCast_nonneg L) (by simp) (by simp; ring)]
    rw [parse_ndef_tlv_loop_canon (s.length + 2) s "" (L : Int) 0
      (Int.natCast_nonneg L) (by omega)]
    rw [parse_ndef_tlv_loop_canon (s.length + 4) s "" (L : Int) 0
      (Int.natCast_nonneg L) (by omega)]
    cases hR : parse_ndef_tlv_loop (s.length + 1) ⟨s, ""⟩ (L : Int) (s.length : Int) 0 with
    | error e => rfl
    | ok p =>
      obtain ⟨n, cnt⟩ := p
      rfl
  · rw [if_neg hmsg, if_neg hmsg]
    unfold parse_ndef_message
    rw [parse_ndef_message_loop_shift2 (s.length + 2) [t, L] s "" 2 (2 + (L : Int))
      0 (L : Int) 1 le_rfl (by simp) (by simp)]
    rw [parse_ndef_message_loop_shift2 (s.length + 4) [t, 255, 0, L] s "" 4
      (4 + (L : Int)) 0 (L : Int) 1 le_rfl (by simp) (by simp)]
    rw [parse_ndef_message_loop_canon (s.length + 2) s "" 0 (L : Int) 1 le_rfl
      (by omega)]
    rw [parse_ndef_message_loop_canon (s.length + 4) s "" 0 (L : Int) 1 le_rfl
      (by omega)]
    cases hM : parse_ndef_message_loop (s.length + 1) ⟨s, ""⟩ 0 (L : Int) 1 with
    | error e => rfl
    | ok p =>
      obtain ⟨n2, p3⟩ := p
      have hmo := parse_ndef_message_loop_ok (s.length + 1) ⟨s, ""⟩ 0 (L : Int) 1
        n2 p3 hM
      obtain ⟨d2, o2⟩ := n2
      have hd : d2 = s := hmo.2
      subst hd
      dsimp only [Except.map]
      rw [parse_ndef_tlv_loop_shift2 (d2.length + 2) [t, L] d2 o2
        ((([t, L] : List Byte).length : Int) + p3) ((d2.length + 1 + 1 : Nat) : Int)
        p3 (d2.length : Int) 1 hmo.1 rfl (by simp; ring)]
      rw [parse_ndef_tlv_loop_shift2 (d2.length + 4) [t, 255, 0, L] d2 o2
        ((([t, 255, 0, L] : List Byte).length : Int) + p3)
        ((d2.length + 1 + 1 + 1 + 1 : Nat) : Int)
        p3 (d2.length : Int) 1 hmo.1 rfl (by simp; ring)]
      rw [parse_ndef_tlv_loop_canon (d2.length + 2) d2 o2 p3 1 hmo.1 (by omega)]
      rw [parse_ndef_tlv_loop_canon (d2.length + 4) d2 o2 p3 1 hmo.1 (by omega)]
      cases hR : parse_ndef_tlv_loop (d2.length + 1) ⟨d2, o2⟩ p3 (d2.length : Int) 1 with
      | error e => rfl
      | ok p =>
        obtain ⟨n, cnt⟩ := p
        rfl

/-- Field extraction from a record flags byte assembled from its components
(with CF = 0). -/
theorem ndef_flag_bits (mb me sr il tnf : Nat) (hmb : mb ≤ 1) (hme : me ≤ 1)
    (hsr : sr ≤ 1) (hil : il ≤ 1) (htnf : tnf < 8) :
    ((128 * mb + 64 * me + 16 * sr + 8 * il + tnf) >>> 5) &&& 1 = 0 ∧
    ((128 * mb + 64 * me + 16 * sr + 8 * il + tnf) >>> 4) &&& 1 = sr ∧
    ((128 * mb + 64 * me + 16 * sr + 8 * il + tnf) >>> 3) &&& 1 = il ∧
    (128 * mb + 64 * me + 16 * sr + 8 * il + tnf) &&& 7 = tnf := by
  have h7 : ∀ x : Nat, x &&& 7 = x % 8 := by
    intro x
    have h := Nat.and_pow_two_sub_one_eq_mod x 3
    norm_num at h
    exact h
  simp only [Nat.shiftRight_eq_div_pow, Nat.and_one_is_mod, h7]
  norm_num
  omega

theorem Ndef.get_third (a b x : Byte) (r : List Byte) (o : String) :
    Ndef.get ⟨a :: b :: x :: r, o⟩ 2 1 = .ok [x] := by
  rw [Ndef.get_ok_val _ _ _ (by simp; omega), pySlice_of_nonneg _ _ _ (by omega)
    (by omega) (by simp; omega)]
  rfl

theorem Ndef.get_quad_at_2 (a b x y z w : Byte) (r : List Byte) (o : String) :
    Ndef.get ⟨a :: b :: x :: y :: z :: w :: r, o⟩ 2 4 = .ok [x, y, z, w] := by
  rw [Ndef.get_ok_val _ _ _ (by simp; omega), pySlice_of_nonneg _ _ _ (by omega)
    (by omega) (by simp; omega)]
  rfl

theorem Ndef.get_append2 (c s : List Byte) (o o' : String) (p q n : Int)
    (hq : 0 ≤ q) (hqn : 0 ≤ q + n) (hp : p = (c.length : Int) + q) :
    Ndef.get ⟨c ++ s, o⟩ p n = Ndef.get ⟨s, o'⟩ q n := by
  subst hp
  exact Ndef.get_append c s o o' q n hq hqn

theorem ndef_read_id_len_shift2 (c s : List Byte) (o o' : String) (il : Nat)
    (p q : Int) (hq : 0 ≤ q) (hp : p = (c.length : Int) + q) :
    ndef_read_id_len ⟨c ++ s, o⟩ il p =
      (ndef_read_id_len ⟨s, o'⟩ il q).map
        (fun x => (x.1, (c.length : Int) + x.2)) := by
  subst hp
  exact ndef_read_id_len_shift c s o o' il q hq

theorem ndef_record_dispatch_shift2 (c s : List Byte) (o : String) (tnf : Nat)
    (tf : List Byte) (p q plen : Int) (hq : 0 ≤ q) (hplen : 0 ≤ plen)
    (hp : p = (c.length : Int) + q) :
    ndef_record_dispatch ⟨c ++ s, o⟩ tnf tf p plen =
      (ndef_record_dispatch ⟨s, o⟩ tnf tf q plen).map
        (fun n => ⟨c ++ s, n.output⟩) := by
  subst hp
  exact ndef_record_dispatch_shift c s o tnf tf q plen hq hplen

theorem record_srform_equiv (mb me il tnf tl pl : Nat) (s : List Byte) (o : String)
    (mn : Nat) (hmb : mb ≤ 1) (hme : me ≤ 1) (hil : il ≤ 1) (htnf : tnf < 8)
    (hpl : pl < 256) :
    parse_ndef_record
        ⟨(128 * mb + 64 * me + 8 * il + tnf) :: tl :: 0x00 :: 0x00 :: 0x00 :: pl :: s,
          o⟩ 0 mn =
      (parse_ndef_record
          ⟨(128 * mb + 64 * me + 16 + 8 * il + tnf) :: tl :: pl :: s, o⟩ 0 mn).map
        (fun p =>
          (⟨(128 * mb + 64 * me + 8 * il + tnf) :: tl :: 0x00 :: 0x00 :: 0x00 ::
              pl :: s, p.1.output⟩, p.2 + 3)) := by
  have hb0 := ndef_flag_bits mb me 0 il tnf hmb hme (by omega) hil htnf
  have hb1 := ndef_flag_bits mb me 1 il tnf hmb hme (by omega) hil htnf
  simp only [Nat.mul_zero, Nat.mul_one, Nat.add_zero] at hb0 hb1
  unfold parse_ndef_record
  rw [Ndef.get_head (128 * mb + 64 * me + 8 * il + tnf)
    (tl :: 0x00 :: 0x00 :: 0x00 :: pl :: s) o]
  rw [Ndef.get_head (128 * mb + 64 * me + 16 + 8 * il + tnf) (tl :: pl :: s) o]
  dsimp only
  rw [show byte0 [128 * mb + 64 * me + 8 * il + tnf] =
    128 * mb + 64 * me + 8 * il + tnf from rfl]
  rw [show byte0 [128 * mb + 64 * me + 16 + 8 * il + tnf] =
    128 * mb + 64 * me + 16 + 8 * il + tnf from rfl]
  rw [if_neg (by simp [hb0.1]), if_neg (by simp [hb1.1])]
  rw [show ((0 : Int) + 1) = 1 from by norm_num]
  rw [Ndef.get_second (128 * mb + 64 * me + 8 * il + tnf) tl
    (0x00 :: 0x00 :: 0x00 :: pl :: s) o]
  rw [Ndef.get_second (128 * mb + 64 * me + 16 + 8 * il + tnf) tl (pl :: s) o]
  dsimp only
  rw [show byte0 [tl] = tl from rfl]
  rw [hb0.2.1, hb1.2.1, hb0.2.2.1, hb1.2.2.1, hb0.2.2.2, hb1.2.2.2]
  rw [show ((1 : Int) + 1) = 2 from by norm_num]
  unfold ndef_read_payload_len
  rw [if_neg (show ¬((0 : Nat) ≠ 0) by decide), if_pos (show (1 : Nat) ≠ 0 by decide)]
  rw [Ndef.get_quad_at_2 (128 * mb + 64 * me + 8 * il + tnf) tl 0x00 0x00 0x00 pl s o]
  rw [Ndef.get_third (128 * mb + 64 * me + 16 + 8 * il + tnf) tl pl s o]
  dsimp only
  rw [show byte0 [pl] = pl from rfl]
  rw [show bytesToNatBE [0x00, 0x00, 0x00, pl] = pl from by
    unfold bytesToNatBE
    simp [List.foldl]]
  rw [show ((2 : Int) + 4) = 6 from by norm_num,
    show ((2 : Int) + 1) = 3 from by norm_num]
  rw [show ((128 * mb + 64 * me + 8 * il + tnf) :: tl :: 0x00 :: 0x00 :: 0x00 ::
      pl :: s) = [128 * mb + 64 * me + 8 * il + tnf, tl, 0x00, 0x00, 0x00, pl] ++ s
    from rfl]
  rw [show ((128 * mb + 64 * me + 16 + 8 * il + tnf) :: tl :: pl :: s) =
    [128 * mb + 64 * me + 16 + 8 * il + tnf, tl, pl] ++ s from rfl]
  rw [ndef_read_id_len_shift2
    [128 * mb + 64 * me + 8 * il + tnf, tl, 0x00, 0x00, 0x00, pl] s o o il 6 0
    le_rfl (by simp)]
  rw [ndef_read_id_len_shift2 [128 * mb + 64 * me + 16 + 8 * il + tnf, tl, pl]
    s o o il 3 0 le_rfl (by simp)]
  cases hid : ndef_read_id_len ⟨s, o⟩ il 0 with
  | error e => rfl
  | ok ip =>
    obtain ⟨idl, p1⟩ := ip
    have hio := ndef_read_id_len_ok _ _ _ _ _ hid
    have htl := Int.natCast_nonneg tl
    have hplc := Int.natCast_nonneg pl
    dsimp only [Except.map]
    rw [Ndef.get_append2
      [128 * mb + 64 * me + 8 * il + tnf, tl, 0x00, 0x00, 0x00, pl] s o o _ p1
      (tl : Int) (by omega) (by omega) rfl]
    rw [Ndef.get_append2 [128 * mb + 64 * me + 16 + 8 * il + tnf, tl, pl] s o o
      _ p1 (tl : Int) (by omega) (by omega) rfl]
    cases hty : Ndef.get ⟨s, o⟩ p1 (tl : Int) with
    | error e => rfl
    | ok tf =>
      dsimp only
      rw [show ((([128 * mb + 64 * me + 8 * il + tnf, tl, 0x00, 0x00, 0x00, pl] :
          List Byte).length : Int) + p1) + (tl : Int) + idl =
        (([128 * mb + 64 * me + 8 * il + tnf, tl, 0x00, 0x00, 0x00, pl] :
          List Byte).length : Int) + (p1 + (tl : Int) + idl) from by ring]
      rw [show ((([128 * mb + 64 * me + 16 + 8 * il + tnf, tl, pl] :
          List Byte).length : Int) + p1) + (tl : Int) + idl =
        (([128 * mb + 64 * me + 16 + 8 * il + tnf, tl, pl] :
          List Byte).length : Int) + (p1 + (tl : Int) + idl) from by ring]
      rw [ndef_record_dispatch_shift2
        [128 * mb + 64 * me + 8 * il + tnf, tl, 0x00, 0x00, 0x00, pl] s o tnf tf
        _ (p1 + (tl : Int) + idl) (pl : Int) (by omega) (by omega) rfl]
      rw [ndef_record_dispatch_shift2
        [128 * mb + 64 * me + 16 + 8 * il + tnf, tl, pl] s o tnf tf
        _ (p1 + (tl : Int) + idl) (pl : Int) (by omega) (by omega) rfl]
      cases hdp : ndef_record_dispatch ⟨s, o⟩ tnf tf (p1 + (tl : Int) + idl)
          (pl : Int) with
      | error e => rfl
      | ok m =>
        dsimp only [Except.map]
        rw [show (([128 * mb + 64 * me + 8 * il + tnf, tl, 0x00, 0x00, 0x00, pl] :
            List Byte).length : Int) + (p1 + (tl : Int) + idl) + (pl : Int) =
          (([128 * mb + 64 * me + 16 + 8 * il + tnf, tl, pl] :
            List Byte).length : Int) + (p1 + (tl : Int) + idl) + (pl : Int) + 3
          from by simp; ring]

theorem ndef_map_out_shift (c s2 : List Byte) (r : Except NdefError (Ndef × Nat)) :
    (r.map (fun p => (Ndef.mk (c ++ s2) p.1.output, p.2))).map
        (fun p : Ndef × Nat => (p.1.output, p.2)) =
      r.map (fun p : Ndef × Nat => (p.1.output, p.2)) := by
  cases r <;> rfl

/-- Core of the TLV long-form equivalence, at the scanner-loop level: from a
state whose cursor sits on the TLV's type byte, the scan of the short-form
buffer and of the long-form buffer produce the same output text and the same
message count (or fail with the same error). -/
theorem tlv_longform_loop_equiv (t L : Byte) (s : List Byte) (o : String)
    (cnt : Nat) (hL : L < 0xFF)
    (h0 : ¬ t = NdefTlvPadding) (hFE : ¬ t = NdefTlvTerminator)
    (hK : t = NdefTlvLockControl ∨ t = NdefTlvMemoryControl ∨
      t = NdefTlvProprietary ∨ t = NdefTlvNdefMessage) :
    (parse_ndef_tlv_loop ((t :: L :: s).length + 1) ⟨t :: L :: s, o⟩ 0
        ((t :: L :: s).length : Int) cnt).map
      (fun p : Ndef × Nat => (p.1.output, p.2)) =
    (parse_ndef_tlv_loop ((t :: 0xFF :: 0x00 :: L :: s).length + 1)
        ⟨t :: 0xFF :: 0x00 :: L :: s, o⟩ 0
        ((t :: 0xFF :: 0x00 :: L :: s).length : Int) cnt).map
      (fun p : Ndef × Nat => (p.1.output, p.2)) := by
  simp only [List.length_cons]
  rw [parse_ndef_tlv_loop.eq_2, parse_ndef_tlv_loop.eq_2]
  rw [if_pos (show (0 : Int) < ((s.length + 1 + 1 : Nat) : Int) by omega),
    if_pos (show (0 : Int) < ((s.length + 1 + 1 + 1 + 1 : Nat) : Int) by omega)]
  rw [Ndef.get_head t (L :: s) o, Ndef.get_head t (0xFF :: 0x00 :: L :: s) o]
  dsimp only
  rw [show byte0 [t] = t from rfl]
  rw [if_neg h0, if_neg hFE, if_pos hK]
  rw [if_neg h0, if_neg hFE, if_pos hK]
  simp only [zero_add]
  rw [Ndef.get_second t L s o, Ndef.get_second t 0xFF (0x00 :: L :: s) o]
  dsimp only
  rw [show byte0 [L] = L from rfl, show byte0 [(0xFF : Byte)] = 0xFF from rfl]
  rw [show (1 : Int) + 1 = 2 from by norm_num]
  unfold ndef_read_tlv_len
  rw [if_pos hL, if_neg (show ¬ ((0xFF : Byte) < 0xFF) by decide)]
  rw [Ndef.get_pair_at_2 t 0xFF 0x00 L s o]
  dsimp only
  rw [show bytesToNatBE [0x00, L] = L from by
    unfold bytesToNatBE
    simp [List.foldl]]
  rw [show (2 : Int) + 2 = 4 from by norm_num]
  rw [show (t :: L :: s) = [t, L] ++ s from rfl,
    show (t :: 255 :: 0 :: L :: s) = [t, 255, 0, L] ++ s from rfl]
  by_cases hmsg : t ≠ NdefTlvNdefMessage
  · rw [if_pos hmsg, if_pos hmsg]
    rw [parse_ndef_tlv_loop_shift2 (s.length + 2) [t, L] s o (2 + (L : Int))
      ((s.length + 1 + 1 : Nat) : Int) (L : Int) (s.length : Int) cnt
      (Int.natCast_nonneg L) (by simp) (by simp; ring)]
    rw [parse_ndef_tlv_loop_shift2 (s.length + 4) [t, 255, 0, L] s o (4 + (L : Int))
      ((s.length + 1 + 1 + 1 + 1 : Nat) : Int) (L : Int) (s.length : Int) cnt
      (Int.natCast_nonneg L) (by simp) (by simp; ring)]
    rw [parse_ndef_tlv_loop_canon (s.length + 2) s o (L : Int) cnt
      (Int.natCast_nonneg L) (by omega)]
    rw [parse_ndef_tlv_loop_canon (s.length + 4) s o (L : Int) cnt
      (Int.natCast_nonneg L) (by omega)]
    cases hR : parse_ndef_tlv_loop (s.length + 1) ⟨s, o⟩ (L : Int) (s.length : Int)
        cnt with
    | error e => rfl
    | ok p =>
      obtain ⟨n, cnt2⟩ := p
      rfl
  · rw [if_neg hmsg, if_neg hmsg]
    unfold parse_ndef_message
    rw [parse_ndef_message_loop_shift2 (s.length + 2) [t, L] s o 2 (2 + (L : Int))
      0 (L : Int) (cnt + 1) le_rfl (by simp) (by simp)]
    rw [parse_ndef_message_loop_shift2 (s.length + 4) [t, 255, 0, L] s o 4
      (4 + (L : Int)) 0 (L : Int) (cnt + 1) le_rfl (by simp) (by simp)]
    rw [parse_ndef_message_loop_canon (s.length + 2) s o 0 (L : Int) (cnt + 1)
      le_rfl (by omega)]
    rw [parse_ndef_message_loop_canon (s.length + 4) s o 0 (L : Int) (cnt + 1)
      le_rfl (by omega)]
    cases hM : parse_ndef_message_loop (s.length + 1) ⟨s, o⟩ 0 (L : Int) (cnt + 1) with
    | error e => rfl
    | ok p =>
      obtain ⟨n2, p3⟩ := p
      have hmo := parse_ndef_message_loop_ok (s.length + 1) ⟨s, o⟩ 0 (L : Int)
        (cnt + 1) n2 p3 hM
      obtain ⟨d2, o2⟩ := n2
      have hd : d2 = s := hmo.2
      subst hd
      dsimp only [Except.map]
      rw [parse_ndef_tlv_loop_shift2 (d2.length + 2) [t, L] d2 o2
        ((([t, L] : List Byte).length : Int) + p3) ((d2.length + 1 + 1 : Nat) : Int)
        p3 (d2.length : Int) (cnt + 1) hmo.1 rfl (by simp; ring)]
      rw [parse_ndef_tlv_loop_shift2 (d2.length + 4) [t, 255, 0, L] d2 o2
        ((([t, 255, 0, L] : List Byte).length : Int) + p3)
        ((d2.length + 1 + 1 + 1 + 1 : Nat) : Int)
        p3 (d2.length : Int) (cnt + 1) hmo.1 rfl (by simp; ring)]
      rw [parse_ndef_tlv_loop_canon (d2.length + 2) d2 o2 p3 (cnt + 1) hmo.1
        (by omega)]
      rw [parse_ndef_tlv_loop_canon (d2.length + 4) d2 o2 p3 (cnt + 1) hmo.1
        (by omega)]
      cases hR : parse_ndef_tlv_loop (d2.length + 1) ⟨d2, o2⟩ p3 (d2.length : Int)
          (cnt + 1) with
      | error e => rfl
      | ok p =>
        obtain ⟨n, cnt2⟩ := p
        rfl

/-- C5: length-encoding equivalence.  (1) At whatever scan state the TLV
scanner reaches a TLV of type LockControl, MemoryControl, Proprietary or
NdefMessage — any already-scanned prefix, accumulated output, accumulated
message count and sufficient fuel — a value length L below 0xFF yields the
same output text and the same message count (or the same error) whether L is
encoded in short form (one byte) or long form (0xFF followed by L as two
big-endian bytes), the value bytes and the rest of the buffer unchanged.
(2) Consequently the public entry point returns the same string for the two
encodings of a whole buffer.  (3) A record whose payload length is below 256
decodes identically — same error or same appended output, with the cursor
landing 3 positions further for the 3 extra length bytes — whether encoded
with SR=1 (1-byte length) or SR=0 (4-byte big-endian length). -/
theorem claim_C5 :
    (∀ (c : List Byte) (o : String) (cnt : Nat) (t L : Byte) (s : List Byte)
      (f1 f2 : Nat), L < 0xFF →
      (t = NdefTlvLockControl ∨ t = NdefTlvMemoryControl ∨
        t = NdefTlvProprietary ∨ t = NdefTlvNdefMessage) →
      (c ++ t :: L :: s).length + 1 ≤ f1 →
      (c ++ t :: 0xFF :: 0x00 :: L :: s).length + 1 ≤ f2 →
      (parse_ndef_tlv_loop f1 ⟨c ++ t :: L :: s, o⟩ (c.length : Int)
          ((c ++ t :: L :: s).length : Int) cnt).map
        (fun p : Ndef × Nat => (p.1.output, p.2)) =
      (parse_ndef_tlv_loop f2 ⟨c ++ t :: 0xFF :: 0x00 :: L :: s, o⟩
          (c.length : Int) ((c ++ t :: 0xFF :: 0x00 :: L :: s).length : Int)
          cnt).map
        (fun p : Ndef × Nat => (p.1.output, p.2))) ∧
    (∀ (t L : Byte) (s : List Byte), L < 0xFF →
      (t = NdefTlvLockControl ∨ t = NdefTlvMemoryControl ∨
        t = NdefTlvProprietary ∨ t = NdefTlvNdefMessage) →
      parse_ndef (t :: L :: s) = parse_ndef (t :: 0xFF :: 0x00 :: L :: s)) ∧
    (∀ (mb me il tnf tl pl : Nat) (s : List Byte) (o : String) (mn : Nat),
      mb ≤ 1 → me ≤ 1 → il ≤ 1 → tnf < 8 → pl < 256 →
      parse_ndef_record
          ⟨(128 * mb + 64 * me + 8 * il + tnf) :: tl :: 0x00 :: 0x00 :: 0x00 ::
            pl :: s, o⟩ 0 mn =
        (parse_ndef_record
            ⟨(128 * mb + 64 * me + 16 + 8 * il + tnf) :: tl :: pl :: s, o⟩ 0 mn).map
          (fun p =>
            (⟨(128 * mb + 64 * me + 8 * il + tnf) :: tl :: 0x00 :: 0x00 :: 0x00 ::
                pl :: s, p.1.output⟩, p.2 + 3))) := by
  refine ⟨?_, ?_, ?_⟩
  · intro c o cnt t L s f1 f2 hL hK hf1 hf2
    have h0 : ¬ t = NdefTlvPadding := by
      rcases hK with h | h | h | h <;> subst h <;> decide
    have hFE : ¬ t = NdefTlvTerminator := by
      rcases hK with h | h | h | h <;> subst h <;> decide
    rw [parse_ndef_tlv_loop_shift2 f1 c (t :: L :: s) o (c.length : Int)
      (((c ++ t :: L :: s).length : Nat) : Int) 0 ((t :: L :: s).length : Int) cnt
      le_rfl (by ring) (by simp)]
    rw [parse_ndef_tlv_loop_shift2 f2 c (t :: 0xFF :: 0x00 :: L :: s) o
      (c.length : Int) (((c ++ t :: 0xFF :: 0x00 :: L :: s).length : Nat) : Int) 0
      ((t :: 0xFF :: 0x00 :: L :: s).length : Int) cnt
      le_rfl (by ring) (by simp)]
    rw [ndef_map_out_shift, ndef_map_out_shift]
    rw [parse_ndef_tlv_loop_canon f1 (t :: L :: s) o 0 cnt le_rfl
      (by simp only [List.length_append, List.length_cons] at hf1 ⊢; omega)]
    rw [parse_ndef_tlv_loop_canon f2 (t :: 0xFF :: 0x00 :: L :: s) o 0 cnt le_rfl
      (by simp only [List.length_append, List.length_cons] at hf2 ⊢; omega)]
    exact tlv_longform_loop_equiv t L s o cnt hL h0 hFE hK
  · intro t L s hL hK
    have h0 : ¬ t = NdefTlvPadding := by
      rcases hK with h | h | h | h <;> subst h <;> decide
    have hFE : ¬ t = NdefTlvTerminator := by
      rcases hK with h | h | h | h <;> subst h <;> decide
    exact tlv_longform_equiv t L s hL h0 hFE hK
  · intro mb me il tnf tl pl s o mn hmb hme hil htnf hpl
    exact record_srform_equiv mb me il tnf tl pl s o mn hmb hme hil htnf hpl

/-- Witness for C5: a concrete mid-scan LockControl TLV (nonzero accumulated
count and output) re-encoded in long form gives the same output and count, a
concrete whole-buffer parse agrees for both encodings, and a concrete URI
record decodes identically in SR and non-SR form. -/
theorem claim_C5_witness :
    (parse_ndef_tlv_loop 6 ⟨[0x00] ++ 0x01 :: 0x01 :: [0xAA, 0xFE], "x"⟩ 1 5 2).map
        (fun p : Ndef × Nat => (p.1.output, p.2)) =
      (parse_ndef_tlv_loop 8 ⟨[0x00] ++ 0x01 :: 0xFF :: 0x00 :: 0x01 ::
          [0xAA, 0xFE], "x"⟩ 1 7 2).map
        (fun p : Ndef × Nat => (p.1.output, p.2)) ∧
    parse_ndef (0x01 :: 0x02 :: [0xAA, 0xBB, 0xFE]) =
      parse_ndef (0x01 :: 0xFF :: 0x00 :: 0x02 :: [0xAA, 0xBB, 0xFE]) ∧
    parse_ndef_record
        ⟨(128 * 1 + 64 * 1 + 8 * 0 + 1) :: 1 :: 0x00 :: 0x00 :: 0x00 :: 1 ::
          [0x55, 0x00], ""⟩ 0 1 =
      (parse_ndef_record
          ⟨(128 * 1 + 64 * 1 + 16 + 8 * 0 + 1) :: 1 :: 1 :: [0x55, 0x00], ""⟩ 0 1).map
        (fun p =>
          (⟨(128 * 1 + 64 * 1 + 8 * 0 + 1) :: 1 :: 0x00 :: 0x00 :: 0x00 :: 1 ::
              [0x55, 0x00], p.1.output⟩, p.2 + 3)) :=
  ⟨claim_C5.1 [0x00] "x" 2 0x01 0x01 [0xAA, 0xFE] 6 8 (by decide) (by decide)
      (by decide) (by decide),
    claim_C5.2.1 0x01 0x02 [0xAA, 0xBB, 0xFE] (by decide) (by decide),
    claim_C5.2.2 1 1 0 1 1 1 [0x55, 0x00] "" 1 (by decide) (by decide) (by decide)
      (by decide) (by decide)⟩
